import Mathlib

set_option maxRecDepth 6000

/-!
Shallow embedding of the core logic of the `ai-resource-configurator`
repository: the similarity scorer and column mapper, the validation engine,
the natural-language query filter and the rule heuristics
(`src/lib/ai-helpers.ts` and `src/lib/validators.ts`), together with proofs
of the behavioural properties stated about them.

JavaScript values are modelled as follows: record fields are strings
(matching the declared `types.ts` interfaces, where every field is a
string); an absent/undefined field is modelled as the empty string, which
is falsy in JavaScript exactly like `undefined`.  JavaScript numbers
produced by `Number`/`parseInt` on these inputs are modelled exactly: a
dedicated `JsNum` type carries NaN and the infinities, finite values are
rationals (every comparison performed by the code is exact at these
magnitudes, so the rational model decides the same Booleans as IEEE
doubles do).
-/

/-!  ## Exact rational arithmetic, in an evaluation-friendly form

The Batteries field operations on `Rat` are marked irreducible, so terms
built from them cannot be checked by kernel evaluation.  The embedding
therefore uses the operations below, written with the smart constructor
`Rat.divInt` (which does evaluate); each is proved equal to the
corresponding field operation, so every statement can be read through
`qDiv_eq`/`qSub_eq`/`qAdd_eq`/`qMul_eq` as ordinary rational arithmetic. -/

/-- Rational division, `a / b` (and `0` when `b = 0`, as in Lean's `/`;
call sites guard the JavaScript `0/0 = NaN` case separately). -/
def qDiv (a b : ℚ) : ℚ := Rat.divInt (a.num * b.den) (a.den * b.num)

/-- Rational subtraction `a - b`. -/
def qSub (a b : ℚ) : ℚ := Rat.divInt (a.num * b.den - b.num * a.den) (a.den * b.den)

/-- Rational addition `a + b`. -/
def qAdd (a b : ℚ) : ℚ := Rat.divInt (a.num * b.den + b.num * a.den) (a.den * b.den)

/-- Rational multiplication `a * b`. -/
def qMul (a b : ℚ) : ℚ := Rat.divInt (a.num * b.num) (a.den * b.den)

/-- The numerator of `a` equals `a` times its denominator. -/
theorem num_eq_mul_den (a : ℚ) : (a.num : ℚ) = a * a.den := by
  have had : (a.den : ℚ) ≠ 0 := by exact_mod_cast Nat.cast_ne_zero.mpr a.den_nz
  exact (div_eq_iff had).mp (Rat.num_div_den a)

/-- `qDiv` is rational division. -/
theorem qDiv_eq (a b : ℚ) : qDiv a b = a / b := by
  rcases eq_or_ne b 0 with rfl | hb
  · simp [qDiv]
  · have hbn : (b.num : ℚ) ≠ 0 := by simpa using Rat.num_ne_zero.mpr hb
    have had : (a.den : ℚ) ≠ 0 := by exact_mod_cast Nat.cast_ne_zero.mpr a.den_nz
    rw [qDiv, Rat.divInt_eq_div]
    push_cast
    rw [div_eq_div_iff (mul_ne_zero had hbn) hb, num_eq_mul_den a, num_eq_mul_den b]
    ring

/-- `qSub` is rational subtraction. -/
theorem qSub_eq (a b : ℚ) : qSub a b = a - b := by
  have had : (a.den : ℚ) ≠ 0 := by exact_mod_cast Nat.cast_ne_zero.mpr a.den_nz
  have hbd : (b.den : ℚ) ≠ 0 := by exact_mod_cast Nat.cast_ne_zero.mpr b.den_nz
  rw [qSub, Rat.divInt_eq_div]
  push_cast
  rw [div_eq_iff (mul_ne_zero had hbd), num_eq_mul_den a, num_eq_mul_den b]
  ring

/-- `qAdd` is rational addition. -/
theorem qAdd_eq (a b : ℚ) : qAdd a b = a + b := by
  have had : (a.den : ℚ) ≠ 0 := by exact_mod_cast Nat.cast_ne_zero.mpr a.den_nz
  have hbd : (b.den : ℚ) ≠ 0 := by exact_mod_cast Nat.cast_ne_zero.mpr b.den_nz
  rw [qAdd, Rat.divInt_eq_div]
  push_cast
  rw [div_eq_iff (mul_ne_zero had hbd), num_eq_mul_den a, num_eq_mul_den b]
  ring

/-- `qMul` is rational multiplication. -/
theorem qMul_eq (a b : ℚ) : qMul a b = a * b := by
  have had : (a.den : ℚ) ≠ 0 := by exact_mod_cast Nat.cast_ne_zero.mpr a.den_nz
  have hbd : (b.den : ℚ) ≠ 0 := by exact_mod_cast Nat.cast_ne_zero.mpr b.den_nz
  rw [qMul, Rat.divInt_eq_div]
  push_cast
  rw [div_eq_iff (mul_ne_zero had hbd), num_eq_mul_den a, num_eq_mul_den b]
  ring

/-- JavaScript whitespace (the characters matched by `\s` and removed by
`String.prototype.trim` that can occur in this data): space, tab, LF, VT,
FF, CR and NBSP. -/
def isJsSpace (c : Char) : Bool :=
  c = ' ' || c = '\t' || c = '\n' || c = '\x0b' || c = '\x0c' || c = '\r' || c = ' '

/-- JavaScript `String.prototype.trim`. -/
def trimJs (s : String) : String :=
  String.mk (((s.toList.dropWhile isJsSpace).reverse.dropWhile isJsSpace).reverse)

/-- JavaScript `String.prototype.toLowerCase` (ASCII range, which is the
only range exercised by this code). -/
def lowerJs (s : String) : String :=
  String.mk (s.toList.map Char.toLower)

/-- `p` occurs at the start of `l`. -/
def beginsWith : List Char → List Char → Bool
  | _, [] => true
  | [], _ :: _ => false
  | a :: s, b :: p => a = b && beginsWith s p

/-- JavaScript `String.prototype.includes` on character lists: some suffix
of `l` starts with `p`. -/
def containsChars : List Char → List Char → Bool
  | l, p =>
    if beginsWith l p then true
    else match l with
      | [] => false
      | _ :: t => containsChars t p

/-- JavaScript `a.includes(b)`. -/
def containsSub (s pat : String) : Bool :=
  containsChars s.toList pat.toList

/-- JavaScript `String.prototype.split(',')`. -/
def splitComma (s : String) : List String :=
  s.split (fun c => c = ',')

/-- JavaScript `Array.prototype.join(sep)`. -/
def joinSep (sep : String) : List String → String
  | [] => ""
  | [a] => a
  | a :: rest => a ++ sep ++ joinSep sep rest

/-- Digit character. -/
def isDigitCh (c : Char) : Bool := '0' ≤ c && c ≤ '9'

/-- Numeric value of a list of decimal digit characters. -/
def digitsToNat (l : List Char) : Nat :=
  l.foldl (fun acc c => acc * 10 + (c.toNat - '0'.toNat)) 0

/-- Hex digit character. -/
def isHexCh (c : Char) : Bool :=
  isDigitCh c || ('a' ≤ c && c ≤ 'f') || ('A' ≤ c && c ≤ 'F')

/-- Numeric value of a hex digit. -/
def hexVal (c : Char) : Nat :=
  if isDigitCh c then c.toNat - '0'.toNat
  else if 'a' ≤ c && c ≤ 'f' then c.toNat - 'a'.toNat + 10
  else c.toNat - 'A'.toNat + 10

/-- Numeric value of a list of hex digit characters. -/
def hexToNat (l : List Char) : Nat :=
  l.foldl (fun acc c => acc * 16 + hexVal c) 0

/-- JavaScript `parseInt(s)` (radix auto-detection: `0x`/`0X` prefix means
hexadecimal, anything else decimal; leading whitespace skipped, optional
sign, longest digit run taken, `NaN` — modelled as `none` — when no digit
follows). -/
def jsParseInt (s : String) : Option Int :=
  let l := s.toList.dropWhile isJsSpace
  let (sgn, l1) : Int × List Char :=
    match l with
    | '+' :: t => (1, t)
    | '-' :: t => (-1, t)
    | t => (1, t)
  match l1 with
  | '0' :: 'x' :: t =>
      let ds := t.takeWhile isHexCh
      if ds = [] then none else some (sgn * hexToNat ds)
  | '0' :: 'X' :: t =>
      let ds := t.takeWhile isHexCh
      if ds = [] then none else some (sgn * hexToNat ds)
  | t =>
      let ds := t.takeWhile isDigitCh
      if ds = [] then none else some (sgn * digitsToNat ds)

/-- A JavaScript number as produced by `Number(...)` on this data: NaN, a
signed infinity, or a finite value (exact, as a rational). -/
inductive JsNum : Type
  | nan : JsNum
  | inf : Bool → JsNum
  | val : ℚ → JsNum
deriving DecidableEq

/-- Decimal numeric literal body: `digits [. digits] [e[sign]digits]`,
consuming the whole input, as accepted by `Number`. -/
def parseDecimalBody (l : List Char) : Option ℚ :=
  let ip := l.takeWhile isDigitCh
  let r1 := l.dropWhile isDigitCh
  let (fp, r2) : List Char × List Char :=
    match r1 with
    | '.' :: t => (t.takeWhile isDigitCh, t.dropWhile isDigitCh)
    | t => ([], t)
  if ip = [] ∧ fp = [] then none
  else
    let mant : ℚ := qAdd (digitsToNat ip : ℚ) (qDiv (digitsToNat fp : ℚ) ((10 ^ fp.length : ℕ) : ℚ))
    match r2 with
    | [] => some mant
    | e :: t =>
        if e = 'e' ∨ e = 'E' then
          let (eneg, t1) : Bool × List Char :=
            match t with
            | '+' :: u => (false, u)
            | '-' :: u => (true, u)
            | u => (false, u)
          let eds := t1.takeWhile isDigitCh
          if eds = [] ∨ t1.dropWhile isDigitCh ≠ [] then none
          else if eneg then some (qDiv mant ((10 ^ digitsToNat eds : ℕ) : ℚ))
          else some (qMul mant ((10 ^ digitsToNat eds : ℕ) : ℚ))
        else none

/-- JavaScript `Number(s)` for a string input: trims whitespace, empty
means `0`, otherwise an optional sign followed by `Infinity` or a decimal
literal, or an unsigned `0x`/`0o`/`0b` radix literal; anything else is
NaN. -/
def jsNumber (s : String) : JsNum :=
  let t := (trimJs s).toList
  if t = [] then .val 0
  else
    match t with
    | '0' :: 'x' :: u => if u ≠ [] ∧ u.all isHexCh then .val (hexToNat u) else .nan
    | '0' :: 'X' :: u => if u ≠ [] ∧ u.all isHexCh then .val (hexToNat u) else .nan
    | '0' :: 'o' :: u => if u ≠ [] ∧ u.all (fun c => '0' ≤ c && c ≤ '7') then .val (u.foldl (fun a c => a * 8 + (c.toNat - '0'.toNat)) 0) else .nan
    | '0' :: 'O' :: u => if u ≠ [] ∧ u.all (fun c => '0' ≤ c && c ≤ '7') then .val (u.foldl (fun a c => a * 8 + (c.toNat - '0'.toNat)) 0) else .nan
    | '0' :: 'b' :: u => if u ≠ [] ∧ u.all (fun c => c = '0' ∨ c = '1') then .val (u.foldl (fun a c => a * 2 + (c.toNat - '0'.toNat)) 0) else .nan
    | '0' :: 'B' :: u => if u ≠ [] ∧ u.all (fun c => c = '0' ∨ c = '1') then .val (u.foldl (fun a c => a * 2 + (c.toNat - '0'.toNat)) 0) else .nan
    | _ =>
      let (neg, body) : Bool × List Char :=
        match t with
        | '+' :: u => (false, u)
        | '-' :: u => (true, u)
        | u => (false, u)
      if body = "Infinity".toList then .inf (!neg)
      else
        match parseDecimalBody body with
        | some q => .val (if neg then -q else q)
        | none => .nan

/-- `isNaN(n)` for a `JsNum`. -/
def JsNum.isNaN : JsNum → Bool
  | .nan => true
  | _ => false

/-- `n < q` for a `JsNum` against a finite bound (NaN compares false). -/
def JsNum.ltQ : JsNum → ℚ → Bool
  | .nan, _ => false
  | .inf b, _ => !b
  | .val x, q => x < q

/-- `n > q` for a `JsNum` against a finite bound (NaN compares false). -/
def JsNum.gtQ : JsNum → ℚ → Bool
  | .nan, _ => false
  | .inf b, _ => b
  | .val x, q => q < x

/-!  ## Similarity scorer (`calculateSimilarity`, ai-helpers.ts lines 20–36)

The source fills the standard Levenshtein dynamic-programming matrix:
`matrix[j][i] = min(matrix[j][i-1] + 1, matrix[j-1][i] + 1,
matrix[j-1][i-1] + indicator)` with first row/column `0..len`.  `lev`
below is that matrix expressed by its defining recurrence on the two
character lists; the score is `1 - distance / max(len1, len2)`, which in
JavaScript is NaN when both strings are empty (`0/0`); we model the NaN
outcome as `none`. -/

/-- One level of the Levenshtein recurrence: given `f = lev s`, this is
`lev (a :: s)` (structural in the second string, so that values compute by
kernel evaluation). -/
def levAux (a : Char) (s : List Char) (f : List Char → Nat) : List Char → Nat
  | [] => s.length + 1
  | b :: t =>
      min (f (b :: t) + 1)
        (min (levAux a s f t + 1)
          (f t + (if a = b then 0 else 1)))

def lev : List Char → List Char → Nat
  | [], t => t.length
  | a :: s, t => levAux a s (lev s) t

/-- `lev` on an empty first string. -/
theorem lev_nil (t : List Char) : lev [] t = t.length := rfl

/-- `lev` on an empty second string. -/
theorem lev_cons_nil (a : Char) (s : List Char) : lev (a :: s) [] = (a :: s).length := rfl

/-- The full Levenshtein matrix recurrence of the source
(`matrix[j][i] = min(matrix[j][i-1] + 1, matrix[j-1][i] + 1, matrix[j-1][i-1] + indicator)`). -/
theorem lev_cons_cons (a b : Char) (s t : List Char) :
    lev (a :: s) (b :: t) =
      min (lev s (b :: t) + 1)
        (min (lev (a :: s) t + 1)
          (lev s t + (if a = b then 0 else 1))) := rfl

/-- `calculateSimilarity` (ai-helpers.ts lines 20–36); `none` is the NaN
produced by `0/0` when both strings are empty. -/
def calculateSimilarity (str1 str2 : String) : Option ℚ :=
  if max str1.length str2.length = 0 then none
  else some (qSub 1 (qDiv ((lev str1.toList str2.toList : ℕ) : ℚ) ((max str1.length str2.length : ℕ) : ℚ)))

example : calculateSimilarity "" "" = none := by decide
example : calculateSimilarity "ab" "ab" = some 1 := by decide
example : calculateSimilarity "id" "requestedtaskids" = some (qSub 1 (qDiv 14 16)) := by decide
example : jsNumber "abc" = .nan := by decide
example : jsNumber "12" = .val 12 := by decide
example : jsNumber " 2.5e1 " = .val 25 := by decide
example : jsParseInt "  -42abc" = some (-42) := by decide

/-!  ## Record types (`src/lib/types.ts`)

Every declared field is a string; the two optional client fields
(`GroupTag?`, `AttributesJSON?`) and any absent field are modelled as the
empty string, which is falsy in JavaScript exactly like `undefined`. -/

structure Client where
  ClientID : String
  ClientName : String
  PriorityLevel : String
  RequestedTaskIDs : String
  GroupTag : String
  AttributesJSON : String
deriving DecidableEq

structure Worker where
  WorkerID : String
  WorkerName : String
  Skills : String
  AvailableSlots : String
  MaxLoadPerPhase : String
  WorkerGroup : String
  QualificationLevel : String
deriving DecidableEq

structure TaskRec where
  TaskID : String
  TaskName : String
  Category : String
  Duration : String
  RequiredSkills : String
  PreferredPhases : String
  MaxConcurrent : String
deriving DecidableEq

/-!  ## Validation engine (`src/lib/validators.ts`) -/

inductive Severity : Type
  | error : Severity
  | warning : Severity
deriving DecidableEq

structure ValidationError where
  row : Nat
  column : String
  error : String
  severity : Severity
  suggestion : String
deriving DecidableEq

structure ValidationSummary where
  totalRows : Nat
  errorCount : Nat
  warningCount : Nat
deriving DecidableEq

structure ValidationResult where
  isValid : Bool
  errors : List ValidationError
  warnings : List ValidationError
  summary : ValidationSummary
deriving DecidableEq

/-- Decimal rendering of the rational bounds interpolated into range
messages (all bounds in the source are integers, rendered as JavaScript
renders integral numbers). -/
def qToString (q : ℚ) : String :=
  toString q.num ++ (if q.den = 1 then "" else "/" ++ toString q.den)

/-- `validators.required` (validators.ts lines 23–34). -/
def validators.required (value : String) (fieldName : String) (rowIndex : Nat) :
    Option ValidationError :=
  if value = "" ∨ trimJs value = "" then
    some { row := rowIndex, column := fieldName
           error := fieldName ++ " is required", severity := .error
           suggestion := "Add a value for " ++ fieldName }
  else none

/-- The duplicate error pushed by `validators.duplicates` for row `index`
and value `value`. -/
def dupError (fieldName : String) (index : Nat) (value : String) : ValidationError :=
  { row := index, column := fieldName
    error := "Duplicate " ++ fieldName ++ ": " ++ value, severity := .error
    suggestion := "Make " ++ fieldName ++ " unique or remove duplicate" }

/-- The `forEach` loop of `validators.duplicates` (validators.ts lines
41–56): `index` is the current row index and `seen` the set of lowercased
keys inserted so far (the source's `Map` is used only for membership). -/
def dupGo (fieldName : String) : List String → Nat → List String → List ValidationError
  | [], _, _ => []
  | v :: rest, index, seen =>
    if trimJs v ≠ "" then
      let key := lowerJs v
      if seen.contains key then
        dupError fieldName index v :: dupGo fieldName rest (index + 1) seen
      else
        dupGo fieldName rest (index + 1) (key :: seen)
    else
      dupGo fieldName rest (index + 1) seen

/-- `validators.duplicates` (validators.ts lines 37–59). -/
def validators.duplicates (values : List String) (fieldName : String) :
    List ValidationError :=
  dupGo fieldName values 0 []

/-- The test performed by the JavaScript regex
`/^[^\s@]+@[^\s@]+\.[^\s@]+$/`: one nonempty run of characters other than
whitespace and `@`, one `@`, and a remainder that contains a `.` with at
least one such character on each side. -/
def emailOk (s : String) : Bool :=
  match s.split (fun c => c = '@') with
  | [local_, rest] =>
      local_ ≠ "" && local_.toList.all (fun c => !isJsSpace c) &&
      rest.toList.all (fun c => !isJsSpace c) &&
      ((rest.toList.drop 1).dropLast).contains '.'
  | _ => false

/-- `validators.dataType` (validators.ts lines 62–102).  The `'date'`
branch calls `Date.parse`, whose accepted formats are host-defined; no
call site in the repository uses it, and it is modelled as accepting
every value. -/
def validators.dataType (value : String) (expectedType : String) (fieldName : String)
    (rowIndex : Nat) : Option ValidationError :=
  if value = "" then none
  else if expectedType = "number" then
    if (jsNumber value).isNaN then
      some { row := rowIndex, column := fieldName
             error := fieldName ++ " must be a number", severity := .error
             suggestion := "Enter a valid number for " ++ fieldName }
    else none
  else if expectedType = "email" then
    if !emailOk value then
      some { row := rowIndex, column := fieldName
             error := fieldName ++ " must be a valid email", severity := .error
             suggestion := "Enter a valid email format (e.g., user@domain.com)" }
    else none
  else none

/-- `validators.range` (validators.ts lines 105–119). -/
def validators.range (value : String) (min max : ℚ) (fieldName : String) (rowIndex : Nat) :
    Option ValidationError :=
  if (jsNumber value).isNaN then none
  else if (jsNumber value).ltQ min || (jsNumber value).gtQ max then
    some { row := rowIndex, column := fieldName
           error := fieldName ++ " must be between " ++ qToString min ++ " and " ++ qToString max
           severity := .warning
           suggestion := "Adjust " ++ fieldName ++ " to be within range " ++
             qToString min ++ "-" ++ qToString max }
  else none

/-- `validators.reference` (validators.ts lines 122–135). -/
def validators.reference (value : String) (validValues : List String) (fieldName : String)
    (rowIndex : Nat) : Option ValidationError :=
  if value = "" then none
  else if validValues.contains value then none
  else
    some { row := rowIndex, column := fieldName
           error := fieldName ++ " references invalid value: " ++ value, severity := .error
           suggestion := "Use one of: " ++ joinSep ", " (validValues.take 3) ++
             (if validValues.length > 3 then "..." else "") }

/-- The issues pushed for one client row (validateClientData lines
142–157): required `ClientID`/`ClientName`/`PriorityLevel`, then the
numeric type check and the `[1,10]` range check on `PriorityLevel`. -/
def clientRowIssues (row : Client) (index : Nat) : List ValidationError :=
  (validators.required row.ClientID "ClientID" index).toList ++
  (validators.required row.ClientName "ClientName" index).toList ++
  (validators.required row.PriorityLevel "PriorityLevel" index).toList ++
  (validators.dataType row.PriorityLevel "number" "PriorityLevel" index).toList ++
  (validators.range row.PriorityLevel 1 10 "PriorityLevel" index).toList

/-- Assembles a `ValidationResult` from the collected issue list, exactly
as the three `validate*Data` functions do (validators.ts lines 166–175,
212–221, 252–261). -/
def buildResult (totalRows : Nat) (issues : List ValidationError) : ValidationResult :=
  { isValid := (issues.filter (fun e => e.severity == .error)).length == 0
    errors := issues.filter (fun e => e.severity == .error)
    warnings := issues.filter (fun e => e.severity == .warning)
    summary :=
      { totalRows := totalRows
        errorCount := (issues.filter (fun e => e.severity == .error)).length
        warningCount := (issues.filter (fun e => e.severity == .warning)).length } }

/-- `validateClientData` (validators.ts lines 139–176). -/
def validateClientData (data : List Client) : ValidationResult :=
  let issues :=
    (data.enum.map (fun p => clientRowIssues p.2 p.1)).flatten ++
    validators.duplicates (data.map (fun r => r.ClientID)) "ClientID"
  buildResult data.length issues

/-- The issues pushed for one worker row (validateWorkerData lines
181–203): required `WorkerID`/`WorkerName`/`Skills`, numeric checks on
`AvailableSlots`/`MaxLoadPerPhase`/`QualificationLevel` when present, and
the `[1,10]` range check on `QualificationLevel` when present. -/
def workerRowIssues (row : Worker) (index : Nat) : List ValidationError :=
  (validators.required row.WorkerID "WorkerID" index).toList ++
  (validators.required row.WorkerName "WorkerName" index).toList ++
  (validators.required row.Skills "Skills" index).toList ++
  (if row.AvailableSlots ≠ "" then
    (validators.dataType row.AvailableSlots "number" "AvailableSlots" index).toList else []) ++
  (if row.MaxLoadPerPhase ≠ "" then
    (validators.dataType row.MaxLoadPerPhase "number" "MaxLoadPerPhase" index).toList else []) ++
  (if row.QualificationLevel ≠ "" then
    (validators.dataType row.QualificationLevel "number" "QualificationLevel" index).toList else []) ++
  (if row.QualificationLevel ≠ "" then
    (validators.range row.QualificationLevel 1 10 "QualificationLevel" index).toList else [])

/-- `validateWorkerData` (validators.ts lines 178–222). -/
def validateWorkerData (data : List Worker) : ValidationResult :=
  let issues :=
    (data.enum.map (fun p => workerRowIssues p.2 p.1)).flatten ++
    validators.duplicates (data.map (fun r => r.WorkerID)) "WorkerID"
  buildResult data.length issues

/-- The issues pushed for one task row (validateTaskData lines 227–243):
required `TaskID`/`TaskName`/`Category`, numeric checks on
`Duration`/`MaxConcurrent` when present. -/
def taskRowIssues (row : TaskRec) (index : Nat) : List ValidationError :=
  (validators.required row.TaskID "TaskID" index).toList ++
  (validators.required row.TaskName "TaskName" index).toList ++
  (validators.required row.Category "Category" index).toList ++
  (if row.Duration ≠ "" then
    (validators.dataType row.Duration "number" "Duration" index).toList else []) ++
  (if row.MaxConcurrent ≠ "" then
    (validators.dataType row.MaxConcurrent "number" "MaxConcurrent" index).toList else [])

/-- `validateTaskData` (validators.ts lines 224–262). -/
def validateTaskData (data : List TaskRec) : ValidationResult :=
  let issues :=
    (data.enum.map (fun p => taskRowIssues p.2 p.1)).flatten ++
    validators.duplicates (data.map (fun r => r.TaskID)) "TaskID"
  buildResult data.length issues

/-!  ## Column mapper (`suggestColumnMapping`, ai-helpers.ts lines 39–91) -/

structure ColumnMapping where
  original : String
  suggested : String
  confidence : ℚ
deriving DecidableEq

/-- Header normalization used on both user columns and alias variants:
`toLowerCase().replace(/[_\s-]/g, '')`. -/
def normalizeHeader (s : String) : String :=
  String.mk ((lowerJs s).toList.filter (fun c => !(c = '_' || c = '-' || isJsSpace c)))

/-- The `expectedMappings` alias table (ai-helpers.ts lines 40–62), in
source (insertion) order. -/
def expectedMappings : List (String × List String) := [
  ("CLIENT_ID", ["CLIENT_ID", "client_id", "ClientID", "id", "client_identifier"]),
  ("CLIENT_NAME", ["CLIENT_NAME", "client_name", "ClientName", "name", "company_name"]),
  ("PRIORITY_LEVEL", ["PRIORITY_LEVEL", "priority_level", "Priority", "PriorityLevel", "importance"]),
  ("REQUESTED_TASK_IDS", ["REQUESTED_TASK_IDS", "requested_task_ids", "RequestedTasks", "RequestedTaskIDs", "task_ids", "tasks"]),
  ("GROUP_TAG", ["GROUP_TAG", "group_tag", "Group", "GroupTag", "team_tag"]),
  ("WORKER_ID", ["WORKER_ID", "worker_id", "WorkerID", "employee_id", "id"]),
  ("WORKER_NAME", ["WORKER_NAME", "worker_name", "WorkerName", "name", "employee_name"]),
  ("SKILLS", ["SKILLS", "skills", "Skills", "capabilities", "expertise"]),
  ("AVAILABLE_SLOTS", ["AVAILABLE_SLOTS", "available_slots", "AvailableSlots", "availability", "slots"]),
  ("MAX_LOAD_PER_PHASE", ["MAX_LOAD_PER_PHASE", "max_load_per_phase", "MaxLoad", "MaxLoadPerPhase", "maximum_load", "capacity"]),
  ("WORKER_GROUP", ["WORKER_GROUP", "worker_group", "Group", "WorkerGroup", "team", "department"]),
  ("QUALIFICATION_LEVEL", ["QUALIFICATION_LEVEL", "qualification_level", "Qualification", "QualificationLevel", "qualifications", "certifications"]),
  ("TASK_ID", ["TASK_ID", "task_id", "TaskID", "id", "task_identifier"]),
  ("TASK_NAME", ["TASK_NAME", "task_name", "TaskName", "name", "title"]),
  ("CATEGORY", ["CATEGORY", "category", "Category", "type", "task_type"]),
  ("DURATION", ["DURATION", "duration", "Duration", "time", "estimated_hours"]),
  ("REQUIRED_SKILLS", ["REQUIRED_SKILLS", "required_skills", "RequiredSkills", "skills_needed"]),
  ("PREFERRED_PHASES", ["PREFERRED_PHASES", "preferred_phases", "PreferredPhases", "phases"]),
  ("MAX_CONCURRENT", ["MAX_CONCURRENT", "max_concurrent", "MaxConcurrent", "concurrent_limit"])]

/-- The `(canonical field, variant)` pairs in the order the two nested
`forEach` loops of `suggestColumnMapping` visit them. -/
def mappingPairs : List (String × String) :=
  expectedMappings.flatMap (fun p => p.2.map (fun v => (p.1, v)))

/-- The confidence threshold `0.5` of the source. -/
def confidenceThreshold : ℚ := mkRat 1 2

/-- One iteration of the inner loop of `suggestColumnMapping` (lines
72–78): update `(bestMatch, maxScore)` when
`score > maxScore && score > 0.5`. -/
def mappingStep (normalized : String) (acc : String × ℚ) (p : String × String) :
    String × ℚ :=
  match calculateSimilarity normalized (normalizeHeader p.2) with
  | none => acc
  | some score =>
      if acc.2 < score ∧ confidenceThreshold < score then (p.1, score) else acc

/-- The two nested `forEach` loops of `suggestColumnMapping` (lines
71–79), flattened over `mappingPairs`. -/
def scanPairs (normalized : String) : List (String × String) → String × ℚ → String × ℚ
  | [], acc => acc
  | p :: rest, acc =>
    match mappingStep normalized acc p with
    | (b, m) => scanPairs normalized rest (b, m)

/-- The body of the outer `forEach` of `suggestColumnMapping` (lines
66–88) for one user column: the suggestion pushed for it, if any
(`if (bestMatch)` — a nonempty best match). -/
def mapHeader (userCol : String) : Option ColumnMapping :=
  match scanPairs (normalizeHeader userCol) mappingPairs ("", 0) with
  | (bestMatch, maxScore) =>
    if bestMatch ≠ "" then
      some { original := userCol, suggested := bestMatch, confidence := maxScore }
    else none

/-- `suggestColumnMapping` (ai-helpers.ts lines 39–91): the `forEach`
accumulating `suggestions.push(...)`. -/
def suggestColumnMapping (userColumns : List String) : List ColumnMapping :=
  userColumns.foldl
    (fun acc c =>
      match mapHeader c with
      | some m => acc ++ [m]
      | none => acc) []

example : mapHeader "Id" =
    some { original := "Id", suggested := "CLIENT_ID", confidence := 1 } := by decide

/-- The `ValidationResult` assembled by every validator satisfies the
report invariants. -/
theorem buildResult_invariants (n : Nat) (issues : List ValidationError) :
    ((buildResult n issues).isValid = true ↔ (buildResult n issues).errors = []) ∧
    (buildResult n issues).summary.errorCount = (buildResult n issues).errors.length ∧
    (buildResult n issues).summary.warningCount = (buildResult n issues).warnings.length := by
  refine ⟨?_, rfl, rfl⟩
  simp [buildResult, List.length_eq_zero]

/-- C2: for every record list and each of `validateClientData`,
`validateWorkerData`, `validateTaskData`, the returned result has
`isValid` true exactly when `errors` is empty, `summary.errorCount` equal
to the length of `errors`, and `summary.warningCount` equal to the length
of `warnings`. -/
theorem claim_C2_validation_report_invariants
    (dc : List Client) (dw : List Worker) (dt : List TaskRec) :
    (((validateClientData dc).isValid = true ↔ (validateClientData dc).errors = []) ∧
      (validateClientData dc).summary.errorCount = (validateClientData dc).errors.length ∧
      (validateClientData dc).summary.warningCount = (validateClientData dc).warnings.length) ∧
    (((validateWorkerData dw).isValid = true ↔ (validateWorkerData dw).errors = []) ∧
      (validateWorkerData dw).summary.errorCount = (validateWorkerData dw).errors.length ∧
      (validateWorkerData dw).summary.warningCount = (validateWorkerData dw).warnings.length) ∧
    (((validateTaskData dt).isValid = true ↔ (validateTaskData dt).errors = []) ∧
      (validateTaskData dt).summary.errorCount = (validateTaskData dt).errors.length ∧
      (validateTaskData dt).summary.warningCount = (validateTaskData dt).warnings.length) :=
  ⟨buildResult_invariants _ _, buildResult_invariants _ _, buildResult_invariants _ _⟩

/-!  ## Properties of the similarity scorer (C3) -/

/-- Levenshtein distance of a string to itself is zero. -/
theorem lev_self : ∀ s : List Char, lev s s = 0 := by
  intro s
  induction s with
  | nil => rfl
  | cons a s ih =>
    rw [lev_cons_cons]
    simp [ih, Nat.min_zero]

/-- Levenshtein distance is symmetric. -/
theorem lev_comm : ∀ s t : List Char, lev s t = lev t s := by
  intro s
  induction s with
  | nil =>
    intro t
    cases t <;> simp [lev_nil, lev_cons_nil]
  | cons a s ih =>
    intro t
    induction t with
    | nil => simp [lev_nil, lev_cons_nil]
    | cons b t iht =>
      rw [lev_cons_cons, lev_cons_cons, ih (b :: t), iht, ih t,
        show (if a = b then 0 else 1) = (if b = a then 0 else 1) by simp [eq_comm]]
      exact Nat.min_left_comm _ _ _

/-- Levenshtein distance is at most the longer length. -/
theorem lev_le_max : ∀ s t : List Char, lev s t ≤ max s.length t.length := by
  intro s
  induction s with
  | nil => intro t; simp [lev_nil]
  | cons a s ih =>
    intro t
    cases t with
    | nil => simp [lev_cons_nil]
    | cons b t =>
      rw [lev_cons_cons]
      have h3 : lev s t + (if a = b then 0 else 1) ≤ lev s t + 1 := by
        apply Nat.add_le_add_left
        split <;> omega
      calc min (lev s (b :: t) + 1)
            (min (lev (a :: s) t + 1) (lev s t + (if a = b then 0 else 1)))
          ≤ lev s t + (if a = b then 0 else 1) :=
            le_trans (Nat.min_le_right _ _) (Nat.min_le_right _ _)
        _ ≤ lev s t + 1 := h3
        _ ≤ max s.length t.length + 1 := Nat.add_le_add_right (ih t) 1
        _ = max (a :: s).length (b :: t).length := by
            simp [List.length_cons, Nat.succ_max_succ]

/-- A string is empty exactly when its character list is empty. -/
theorem string_toList_eq_nil {s : String} : s.toList = [] ↔ s = "" := by
  cases s with
  | mk data =>
    rw [show ("" : String) = ⟨[]⟩ from rfl]
    constructor
    · intro h
      exact congrArg String.mk h
    · intro h
      cases h
      rfl

/-- C3 (counterexample to the claim as stated): on two empty strings the
source computes `1 - 0/0`, i.e. NaN — modelled as `none` — and not `1`. -/
theorem claim_C3_counterexample :
    calculateSimilarity "" "" = none ∧ calculateSimilarity "" "" ≠ some 1 := by
  constructor
  · decide
  · decide

/-- C3 (amended): the similarity score is symmetric for all strings; it
equals `1` on identical nonempty strings; every defined score lies in
`[0, 1]`; and on two empty strings the result is the undefined `0/0`
(NaN), not a value. -/
theorem claim_C3_similarity_amended (a b : String) :
    calculateSimilarity a b = calculateSimilarity b a ∧
    (a ≠ "" → calculateSimilarity a a = some 1) ∧
    (∀ q : ℚ, calculateSimilarity a b = some q → 0 ≤ q ∧ q ≤ 1) ∧
    (a = "" → b = "" → calculateSimilarity a b = none) := by
  refine ⟨?_, ?_, ?_, ?_⟩
  · unfold calculateSimilarity
    rw [lev_comm, Nat.max_comm]
  · intro ha
    have hne : a.toList ≠ [] := fun h => ha (string_toList_eq_nil.mp h)
    have hlen : a.length ≠ 0 := by
      have h1 : a.length = a.toList.length := rfl
      rw [h1]
      exact fun h => hne (List.length_eq_zero.mp h)
    unfold calculateSimilarity
    rw [lev_self]
    simp only [Nat.max_self]
    rw [if_neg hlen]
    rw [qSub_eq, qDiv_eq]
    norm_num
  · intro q hq
    unfold calculateSimilarity at hq
    split at hq
    · exact absurd hq (by simp)
    · rename_i hm
      injection hq with hq
      rw [qSub_eq, qDiv_eq] at hq
      set D : ℚ := ((lev a.toList b.toList : ℕ) : ℚ) with hD
      set M : ℚ := ((max a.length b.length : ℕ) : ℚ) with hM
      have hmpos : (0 : ℚ) < M := by
        rw [hM]
        exact_mod_cast Nat.pos_of_ne_zero hm
      have hd0 : (0 : ℚ) ≤ D := by rw [hD]; positivity
      have hdm : D ≤ M := by
        rw [hD, hM]
        exact_mod_cast
          (show lev a.toList b.toList ≤ max a.length b.length from lev_le_max a.toList b.toList)
      constructor
      · rw [← hq]
        have hle : D / M ≤ 1 := (div_le_one hmpos).mpr hdm
        linarith
      · rw [← hq]
        have hge : 0 ≤ D / M := div_nonneg hd0 (le_of_lt hmpos)
        linarith
  · intro ha hb
    subst ha; subst hb
    decide

/-- C3 witness: concrete instances of the amended theorem. -/
theorem claim_C3_similarity_amended_witness :
    calculateSimilarity "abc" "xy" = calculateSimilarity "xy" "abc" ∧
    calculateSimilarity "abc" "abc" = some 1 ∧
    (0 ≤ qSub 1 (qDiv 3 3) ∧ qSub 1 (qDiv 3 3) ≤ 1) ∧
    calculateSimilarity "" "" = none :=
  ⟨(claim_C3_similarity_amended "abc" "xy").1,
   (claim_C3_similarity_amended "abc" "xy").2.1 (by decide),
   (claim_C3_similarity_amended "abc" "xy").2.2.1 (qSub 1 (qDiv 3 3)) (by decide),
   (claim_C3_similarity_amended "" "").2.2.2 rfl rfl⟩

/-!  ## Characterization of the duplicate check (C4) -/

/-- The rows the duplicate check flags, stated declaratively: relative to
the processed prefix `ctx.take (p.1 - base)` and the keys `seen` from
before this call, row `p` is flagged when its value is not
empty/whitespace-only and its lowercased (not trimmed) value was already
seen. -/
def dupPred (ctx : List String) (base : Nat) (seen : List String) (p : Nat × String) : Bool :=
  decide (trimJs p.2 ≠ "") &&
    (seen.contains (lowerJs p.2) ||
      (ctx.take (p.1 - base)).any
        (fun w => decide (trimJs w ≠ "") && decide (lowerJs w = lowerJs p.2)))

/-- `validators.duplicates`, stated declaratively: one error per row whose
non-whitespace value, lowercased but *not* trimmed, already occurred at an
earlier row, in row order. -/
def duplicatesSpec (values : List String) (fieldName : String) : List ValidationError :=
  (values.enum.filter (dupPred values 0 [])).map (fun p => dupError fieldName p.1 p.2)

/-- The duplicate-check loop agrees with the declarative description, for
every starting index and every set of already-seen keys. -/
theorem dupGo_eq (fieldName : String) :
    ∀ (l : List String) (i : Nat) (seen : List String),
      dupGo fieldName l i seen =
        ((List.enumFrom i l).filter (dupPred l i seen)).map
          (fun p => dupError fieldName p.1 p.2) := by
  intro l
  induction l with
  | nil => intro i seen; rfl
  | cons v rest ih =>
    intro i seen
    rw [List.enumFrom_cons]
    have htake : ∀ p : Nat × String, p ∈ List.enumFrom (i + 1) rest →
        (v :: rest).take (p.1 - i) = v :: rest.take (p.1 - (i + 1)) := by
      intro p hp
      have hle : i + 1 ≤ p.1 := List.le_fst_of_mem_enumFrom hp
      have hsub : p.1 - i = (p.1 - (i + 1)) + 1 := by omega
      rw [hsub, List.take_succ_cons]
    by_cases h1 : trimJs v = ""
    · have hstep : dupGo fieldName (v :: rest) i seen = dupGo fieldName rest (i + 1) seen := by
        simp [dupGo, h1]
      have hpred : ∀ p ∈ List.enumFrom (i + 1) rest,
          dupPred rest (i + 1) seen p = dupPred (v :: rest) i seen p := by
        intro p hp
        simp [dupPred, htake p hp, List.any_cons, h1]
      rw [hstep, ih, List.filter_congr hpred]
      simp [List.filter_cons, dupPred, Nat.sub_self, h1]
    · by_cases hm : lowerJs v ∈ seen
      · have hstep : dupGo fieldName (v :: rest) i seen =
            dupError fieldName i v :: dupGo fieldName rest (i + 1) seen := by
          simp [dupGo, h1, hm]
        have hpred : ∀ p ∈ List.enumFrom (i + 1) rest,
            dupPred rest (i + 1) seen p = dupPred (v :: rest) i seen p := by
          intro p hp
          simp only [dupPred, htake p hp, List.any_cons]
          by_cases hkey : lowerJs v = lowerJs p.2
          · rw [← hkey]
            simp [h1, hm]
          · simp [h1, hkey]
        rw [hstep, ih, List.filter_congr hpred]
        simp [List.filter_cons, dupPred, Nat.sub_self, h1, hm]
      · have hstep : dupGo fieldName (v :: rest) i seen =
            dupGo fieldName rest (i + 1) (lowerJs v :: seen) := by
          simp [dupGo, h1, hm]
        have hpred : ∀ p ∈ List.enumFrom (i + 1) rest,
            dupPred rest (i + 1) (lowerJs v :: seen) p = dupPred (v :: rest) i seen p := by
          intro p hp
          simp only [dupPred, htake p hp, List.any_cons, List.contains_cons]
          by_cases hkey : lowerJs v = lowerJs p.2
          · rw [← hkey]
            simp [h1, Bool.or_comm, Bool.or_assoc, Bool.or_left_comm]
          · have hkey2 : ¬ lowerJs p.2 = lowerJs v := fun h => hkey h.symm
            have hb : (lowerJs p.2 == lowerJs v) = false := beq_eq_false_iff_ne.mpr hkey2
            simp [h1, hkey, hb]
        rw [hstep, ih, List.filter_congr hpred]
        simp [List.filter_cons, dupPred, Nat.sub_self, h1, hm]

/-- C4 counterexample to the claim as stated: with values `["A", " A"]`
the second row's trimmed, lowercased identifier (`"a"`) equals the first
row's, so the claim requires an error at row 1, but the code keys on the
untrimmed value (`" a"` vs `"a"`) and emits none. -/
theorem claim_C4_counterexample :
    validators.duplicates ["A", " A"] "ClientID" = [] ∧
    trimJs " A" ≠ "" ∧
    lowerJs (trimJs " A") = lowerJs (trimJs "A") := by
  refine ⟨?_, ?_, ?_⟩ <;> decide

/-- C4 (amended): the duplicate check emits exactly one error-severity
issue per row whose case-insensitive — but *untrimmed* — identifier value
already occurred at an earlier row index, never flags the first
occurrence, ignores values that are empty or whitespace-only, and for
identifiers `["A", "a", "B", "A"]` flags exactly row indices 1 and 3. -/
theorem claim_C4_duplicates_amended :
    (∀ (values : List String) (fieldName : String),
      validators.duplicates values fieldName = duplicatesSpec values fieldName) ∧
    (validators.duplicates ["A", "a", "B", "A"] "ClientID").map (fun e => e.row) = [1, 3] := by
  constructor
  · intro values fieldName
    rw [validators.duplicates, dupGo_eq, duplicatesSpec]
    rfl
  · decide

/-!  ## Shape of the column-mapper output (C10) -/

/-- A pushed suggestion always carries the user column verbatim as its
`original` field. -/
theorem mapHeader_original (c : String) (m : ColumnMapping) (h : mapHeader c = some m) :
    m.original = c := by
  unfold mapHeader at h
  split at h
  split at h
  · cases h
    rfl
  · cases h

/-- The `forEach`/`push` loop of `suggestColumnMapping` is a `filterMap`
of the per-header function. -/
theorem foldl_mapHeader (cols : List String) :
    ∀ acc : List ColumnMapping,
      cols.foldl
        (fun acc c =>
          match mapHeader c with
          | some m => acc ++ [m]
          | none => acc) acc
        = acc ++ cols.filterMap mapHeader := by
  induction cols with
  | nil => intro acc; simp
  | cons c cols ih =>
    intro acc
    rw [List.foldl_cons]
    cases hc : mapHeader c with
    | none =>
      simp only [hc]
      rw [ih, List.filterMap_cons_none hc]
    | some m =>
      simp only [hc]
      rw [ih, List.filterMap_cons_some hc, List.append_assoc]
      rfl

/-- The suggested originals form a subsequence of the input headers. -/
theorem mapHeader_sublist (cols : List String) :
    List.Sublist ((cols.filterMap mapHeader).map (fun m => m.original)) cols := by
  induction cols with
  | nil => simp
  | cons c cols ih =>
    cases hc : mapHeader c with
    | none =>
      rw [List.filterMap_cons_none hc]
      exact ih.cons c
    | some m =>
      rw [List.filterMap_cons_some hc, List.map_cons, mapHeader_original c m hc]
      exact ih.cons₂ c

/-- C10: `suggestColumnMapping` produces at most one mapping per input
header (it is a `filterMap` of a per-header function), each mapping's
`original` equals the corresponding input header verbatim, and the output
order restricted to mapped headers is a subsequence of the input order. -/
theorem claim_C10_mapping_shape (cols : List String) :
    suggestColumnMapping cols = cols.filterMap mapHeader ∧
    (∀ c m, mapHeader c = some m → m.original = c) ∧
    List.Sublist ((suggestColumnMapping cols).map (fun m => m.original)) cols := by
  have he : suggestColumnMapping cols = cols.filterMap mapHeader := by
    rw [suggestColumnMapping, foldl_mapHeader]
    rfl
  exact ⟨he, mapHeader_original, by rw [he]; exact mapHeader_sublist cols⟩

/-!  ## Characterization of the column mapper's best-match scan (C5) -/

/-- The similarity score the mapper computes for one `(field, variant)`
pair against a normalized header.  It is always defined — no alias
variant normalizes to the empty string — and `0` stands in for the
impossible NaN case (which could never win, the threshold being
positive). -/
def pairScore (normalized : String) (p : String × String) : ℚ :=
  match calculateSimilarity normalized (normalizeHeader p.2) with
  | none => 0
  | some q => q

/-- Running maximum of the pair scores over a list, seeded with `m`. -/
def maxScoreOn (normalized : String) (l : List (String × String)) (m : ℚ) : ℚ :=
  l.foldr (fun p acc => max (pairScore normalized p) acc) m

/-- The maximal similarity the mapper can reach for a raw header: the
maximum pair score over the whole alias table (seeded with the initial
`maxScore = 0` of the source). -/
def headerMaxScore (userCol : String) : ℚ :=
  maxScoreOn (normalizeHeader userCol) mappingPairs 0

/-- One scan step, rephrased through `pairScore`: the update happens
exactly when the score beats both the running maximum and the `0.5`
threshold. -/
theorem mappingStep_eq (n : String) (acc : String × ℚ) (p : String × String) :
    mappingStep n acc p =
      if acc.2 < pairScore n p ∧ confidenceThreshold < pairScore n p
      then (p.1, pairScore n p) else acc := by
  unfold mappingStep pairScore
  cases calculateSimilarity n (normalizeHeader p.2) with
  | none =>
    have : ¬ (acc.2 < (0 : ℚ) ∧ confidenceThreshold < (0 : ℚ)) := by
      rintro ⟨-, hc⟩
      exact absurd hc (by decide)
    simp [this]
  | some q => rfl

/-- Unfolding lemma for the scan. -/
theorem scanPairs_cons (n : String) (p : String × String) (l : List (String × String))
    (acc : String × ℚ) :
    scanPairs n (p :: l) acc = scanPairs n l (mappingStep n acc p) := rfl

theorem maxScoreOn_cons (n : String) (p : String × String) (l : List (String × String))
    (m : ℚ) : maxScoreOn n (p :: l) m = max (pairScore n p) (maxScoreOn n l m) := rfl

/-- The seed is a lower bound of the running maximum. -/
theorem le_maxScoreOn (n : String) (l : List (String × String)) (m : ℚ) :
    m ≤ maxScoreOn n l m := by
  induction l with
  | nil => exact le_refl m
  | cons p l ih => exact le_trans ih (le_max_right _ _)

/-- The running maximum commutes with `max` in the seed. -/
theorem maxScoreOn_max (n : String) (l : List (String × String)) (a b : ℚ) :
    maxScoreOn n l (max a b) = max a (maxScoreOn n l b) := by
  induction l with
  | nil => rfl
  | cons p l ih =>
    rw [maxScoreOn_cons, ih, maxScoreOn_cons, max_left_comm]

/-- Every member's score is bounded by the running maximum. -/
theorem pairScore_le_maxScoreOn (n : String) :
    ∀ (l : List (String × String)) (p : String × String) (m : ℚ), p ∈ l →
      pairScore n p ≤ maxScoreOn n l m := by
  intro l
  induction l with
  | nil => intro p m hp; cases hp
  | cons q l ih =>
    intro p m hp
    rw [maxScoreOn_cons]
    rcases List.mem_cons.mp hp with rfl | hp
    · exact le_max_left _ _
    · exact le_trans (ih p m hp) (le_max_right _ _)

/-- When no score can beat both the accumulator and the threshold, the
scan leaves the accumulator unchanged. -/
theorem scanPairs_stay (n : String) :
    ∀ (l : List (String × String)) (b : String) (m : ℚ),
      (maxScoreOn n l m ≤ m ∨ maxScoreOn n l m ≤ confidenceThreshold) →
      scanPairs n l (b, m) = (b, m) := by
  intro l
  induction l with
  | nil => intro b m _; rfl
  | cons p l ih =>
    intro b m hbound
    have hs : pairScore n p ≤ maxScoreOn n (p :: l) m := by
      rw [maxScoreOn_cons]; exact le_max_left _ _
    have hl : maxScoreOn n l m ≤ maxScoreOn n (p :: l) m := by
      rw [maxScoreOn_cons]; exact le_max_right _ _
    have hno : ¬ (m < pairScore n p ∧ confidenceThreshold < pairScore n p) := by
      rintro ⟨h1, h2⟩
      rcases hbound with hb | hb
      · exact absurd (lt_of_lt_of_le h1 (le_trans hs hb)) (lt_irrefl m)
      · exact absurd (lt_of_lt_of_le h2 (le_trans hs hb)) (lt_irrefl _)
    rw [scanPairs_cons, mappingStep_eq, if_neg hno]
    refine ih b m ?_
    rcases hbound with hb | hb
    · exact Or.inl (le_trans hl hb)
    · exact Or.inr (le_trans hl hb)

/-- When some score beats both the seed and the threshold, the scan ends
at the first pair attaining the maximum score, with that score as the
final running maximum. -/
theorem scanPairs_update (n : String) :
    ∀ (l : List (String × String)) (b : String) (m : ℚ),
      m < maxScoreOn n l m → confidenceThreshold < maxScoreOn n l m →
      ∃ p, List.find? (fun q => pairScore n q == maxScoreOn n l m) l = some p ∧
        p ∈ l ∧ pairScore n p = maxScoreOn n l m ∧
        scanPairs n l (b, m) = (p.1, maxScoreOn n l m) := by
  intro l
  induction l with
  | nil =>
    intro b m hm _
    exact absurd hm (lt_irrefl m)
  | cons p l ih =>
    intro b m hm hth
    by_cases hs : pairScore n p = maxScoreOn n (p :: l) m
    · refine ⟨p, ?_, List.mem_cons_self p l, hs, ?_⟩
      · rw [List.find?_cons_of_pos]
        exact beq_iff_eq.mpr hs
      · have hcond : m < pairScore n p ∧ confidenceThreshold < pairScore n p := by
          rw [hs]; exact ⟨hm, hth⟩
        rw [scanPairs_cons, mappingStep_eq, if_pos hcond]
        have hmax : max (pairScore n p) m = pairScore n p := max_eq_left (le_of_lt hcond.1)
        have hstay : maxScoreOn n l (pairScore n p) ≤ pairScore n p := by
          rw [← hmax, maxScoreOn_max, hmax]
          rw [maxScoreOn_cons] at hs
          have : maxScoreOn n l m ≤ pairScore n p := by
            rw [hs]
            exact le_max_right _ _
          exact max_le (le_refl _) this
        rw [scanPairs_stay n l p.1 (pairScore n p) (Or.inl hstay), hs]
    · have hsle : pairScore n p ≤ maxScoreOn n (p :: l) m := by
        rw [maxScoreOn_cons]; exact le_max_left _ _
      have hslt : pairScore n p < maxScoreOn n (p :: l) m := lt_of_le_of_ne hsle hs
      have hMl : maxScoreOn n l m = maxScoreOn n (p :: l) m := by
        rw [maxScoreOn_cons]
        rcases max_choice (pairScore n p) (maxScoreOn n l m) with h | h
        · rw [maxScoreOn_cons] at hs hslt
          rw [h] at hslt
          exact absurd hslt (lt_irrefl _)
        · exact h.symm
      have hfind : List.find? (fun q => pairScore n q == maxScoreOn n (p :: l) m) (p :: l) =
          List.find? (fun q => pairScore n q == maxScoreOn n (p :: l) m) l := by
        rw [List.find?_cons_of_neg]
        simp [hs]
      rw [scanPairs_cons, mappingStep_eq]
      by_cases hup : m < pairScore n p ∧ confidenceThreshold < pairScore n p
      · rw [if_pos hup]
        have hseed : maxScoreOn n l (pairScore n p) = maxScoreOn n (p :: l) m := by
          have hmax : max (pairScore n p) m = pairScore n p := max_eq_left (le_of_lt hup.1)
          have h1 : maxScoreOn n l (pairScore n p) = maxScoreOn n l (max (pairScore n p) m) := by
            rw [hmax]
          rw [h1, maxScoreOn_max, ← maxScoreOn_cons]
        obtain ⟨p', hfind', hmem', hscore', hscan'⟩ :=
          ih p.1 (pairScore n p) (by rw [hseed]; exact hslt) (by rw [hseed]; exact hth)
        rw [hseed] at hfind' hscore' hscan'
        exact ⟨p', by rw [hfind]; exact hfind', List.mem_cons_of_mem p hmem', hscore', hscan'⟩
      · rw [if_neg hup]
        obtain ⟨p', hfind', hmem', hscore', hscan'⟩ :=
          ih b m (by rw [hMl]; exact hm) (by rw [hMl]; exact hth)
        rw [hMl] at hfind' hscore' hscan'
        exact ⟨p', by rw [hfind]; exact hfind', List.mem_cons_of_mem p hmem', hscore', hscan'⟩

/-- Every canonical field name in the alias table is nonempty. -/
theorem mappingPairs_fields_nonempty : ∀ p ∈ mappingPairs, p.1 ≠ "" := by decide

/-- Behaviour of the per-header mapper: a suggestion is produced exactly
when the maximal alias-table similarity strictly exceeds the `0.5`
threshold, and then its confidence is that maximal score and its
suggested field is the field of the first pair (in alias-table iteration
order) attaining the maximum. -/
theorem mapHeader_spec (c : String) :
    ((mapHeader c).isSome ↔ confidenceThreshold < headerMaxScore c) ∧
    (∀ m, mapHeader c = some m →
      m.confidence = headerMaxScore c ∧
      ∃ p, List.find? (fun q => pairScore (normalizeHeader c) q == headerMaxScore c)
            mappingPairs = some p ∧
        m.suggested = p.1) := by
  by_cases hθ : confidenceThreshold < headerMaxScore c
  · have h0 : (0 : ℚ) < headerMaxScore c :=
      lt_trans (show (0 : ℚ) < confidenceThreshold by decide) hθ
    obtain ⟨p, hfind, hmem, hscore, hscan⟩ :=
      scanPairs_update (normalizeHeader c) mappingPairs "" 0 h0 hθ
    have hne : p.1 ≠ "" := mappingPairs_fields_nonempty p hmem
    have hmap : mapHeader c = some ⟨c, p.1, headerMaxScore c⟩ := by
      unfold mapHeader
      rw [show scanPairs (normalizeHeader c) mappingPairs ("", 0) =
            (p.1, headerMaxScore c) from hscan]
      simp [hne]
    refine ⟨?_, ?_⟩
    · simp [hmap, hθ]
    · intro m hm
      rw [hmap] at hm
      cases hm
      exact ⟨rfl, p, hfind, rfl⟩
  · have hstay : scanPairs (normalizeHeader c) mappingPairs ("", 0) = ("", 0) :=
      scanPairs_stay (normalizeHeader c) mappingPairs "" 0 (Or.inr (not_lt.mp hθ))
    have hmap : mapHeader c = none := by
      unfold mapHeader
      rw [show scanPairs (normalizeHeader c) mappingPairs ("", 0) = ("", 0) from hstay]
      simp
    refine ⟨?_, ?_⟩
    · simp [hmap, hθ]
    · intro m hm
      rw [hmap] at hm
      cases hm

/-- C5: a `ColumnMapping` is emitted for a header exactly when the maximal
similarity between the normalized header and the normalized alias-table
variants strictly exceeds `0.5`; the emitted confidence equals that
maximal score, and the suggested canonical field is the field of the
first alias-table pair (in iteration order) attaining the maximum. -/
theorem claim_C5_mapping_threshold (cols : List String) (h : String) (hmem : h ∈ cols) :
    ((∃ cm ∈ suggestColumnMapping cols, cm.original = h) ↔
      confidenceThreshold < headerMaxScore h) ∧
    (∀ cm ∈ suggestColumnMapping cols, cm.original = h →
      cm.confidence = headerMaxScore h ∧
      ∃ p, List.find? (fun q => pairScore (normalizeHeader h) q == headerMaxScore h)
            mappingPairs = some p ∧
        cm.suggested = p.1) := by
  have hfm : suggestColumnMapping cols = cols.filterMap mapHeader := by
    rw [suggestColumnMapping, foldl_mapHeader]
    rfl
  constructor
  · constructor
    · rintro ⟨cm, hcm, horig⟩
      rw [hfm] at hcm
      obtain ⟨c, _, hceq⟩ := List.mem_filterMap.mp hcm
      have hch : c = h := by rw [← mapHeader_original c cm hceq, horig]
      subst hch
      have hsome : (mapHeader c).isSome := by rw [hceq]; rfl
      exact (mapHeader_spec c).1.mp hsome
    · intro hθ
      have hsome := (mapHeader_spec h).1.mpr hθ
      obtain ⟨m, hm⟩ := Option.isSome_iff_exists.mp hsome
      refine ⟨m, ?_, mapHeader_original h m hm⟩
      rw [hfm]
      exact List.mem_filterMap.mpr ⟨h, hmem, hm⟩
  · intro cm hcm horig
    rw [hfm] at hcm
    obtain ⟨c, _, hceq⟩ := List.mem_filterMap.mp hcm
    have hch : c = h := by rw [← mapHeader_original c cm hceq, horig]
    subst hch
    exact (mapHeader_spec c).2 cm hceq

/-- C5 witness: the header `"Id"` is mapped (its maximal alias similarity,
`1`, exceeds `0.5`), and the emitted mapping's confidence and suggested
field are as the theorem describes. -/
theorem claim_C5_mapping_threshold_witness :
    (∃ cm ∈ suggestColumnMapping ["Id"], cm.original = "Id") ∧
    ((⟨"Id", "CLIENT_ID", 1⟩ : ColumnMapping).confidence = headerMaxScore "Id" ∧
      ∃ p, List.find? (fun q => pairScore (normalizeHeader "Id") q == headerMaxScore "Id")
            mappingPairs = some p ∧
        (⟨"Id", "CLIENT_ID", 1⟩ : ColumnMapping).suggested = p.1) :=
  ⟨(claim_C5_mapping_threshold ["Id"] "Id" (by decide)).1.mpr
      (lt_of_lt_of_le (show confidenceThreshold < 1 by decide)
        (le_of_eq_of_le
          (show (1 : ℚ) = pairScore (normalizeHeader "Id") ("CLIENT_ID", "id") by decide)
          (pairScore_le_maxScoreOn (normalizeHeader "Id") mappingPairs ("CLIENT_ID", "id") 0
            (by decide)))),
   (claim_C5_mapping_threshold ["Id"] "Id" (by decide)).2 ⟨"Id", "CLIENT_ID", 1⟩
     (by decide) rfl⟩

/-!  ## Rule heuristics (`suggestRules`, ai-helpers.ts lines 202–238) -/

/-- `parseInt(v) >= k`, false on NaN, as JavaScript compares. -/
def parseIntGe (v : String) (k : Int) : Bool :=
  match jsParseInt v with
  | some n => k ≤ n
  | none => false

/-- `parseInt(v) > k`, false on NaN. -/
def parseIntGt (v : String) (k : Int) : Bool :=
  match jsParseInt v with
  | some n => k < n
  | none => false

/-- `parseInt(v) || 0`. -/
def parseIntOr0 (v : String) : Int :=
  (jsParseInt v).getD 0

def prioritySuggestion : String :=
  "Consider adding priority-based allocation rules for high-priority clients (e.g., Client Priority Level >= 4)."

def slotsSuggestion : String :=
  "Workers have limited available slots - consider workload balancing rules based on AvailableSlots."

def groupsSuggestion : String :=
  "Multiple worker groups detected - consider group-based allocation rules (e.g., WorkerGroup 'Sales' can only do 'Sales' tasks)."

def longTasksSuggestion : String :=
  "Long-duration tasks detected - consider phase-window constraints or sequential allocation."

def concurrentSuggestion : String :=
  "Tasks with concurrent execution limits detected - optimize parallel processing (e.g., MaxConcurrent for specific tasks)."

/-- The `highPriorityClients` count of `suggestRules` (line 206):
clients with a truthy `PriorityLevel` that `parseInt`s to at least 4. -/
def countHighPriorityClients (clientData : List Client) : Nat :=
  (clientData.filter (fun c => decide (c.PriorityLevel ≠ "") && parseIntGe c.PriorityLevel 4)).length

/-- The `avgCapacity` of `suggestRules` (line 214). -/
def avgCapacity (workerData : List Worker) : ℚ :=
  qDiv ((workerData.map (fun w => parseIntOr0 w.AvailableSlots)).sum : ℚ)
    ((workerData.length : ℚ))

/-- The distinct truthy worker groups of `suggestRules` (line 219). -/
def distinctWorkerGroups (workerData : List Worker) : List String :=
  ((workerData.map (fun w => w.WorkerGroup)).filter (fun g => g ≠ "")).dedup

/-- `suggestRules` (ai-helpers.ts lines 202–238): each `push` guarded by
its aggregate condition, in source order. -/
def suggestRules (clientData : List Client) (workerData : List Worker)
    (taskData : List TaskRec) : List String :=
  (if 0 < clientData.length ∧
      mkRat 3 10 < qDiv ((countHighPriorityClients clientData : ℚ)) ((clientData.length : ℚ))
   then [prioritySuggestion] else []) ++
  (if 0 < workerData.length ∧
      (avgCapacity workerData < 20 ∧ 0 < avgCapacity workerData)
   then [slotsSuggestion] else []) ++
  (if 0 < workerData.length ∧ 1 < (distinctWorkerGroups workerData).length
   then [groupsSuggestion] else []) ++
  (if 0 < taskData.length ∧
      0 < (taskData.filter (fun t => decide (t.Duration ≠ "") && parseIntGt t.Duration 3)).length
   then [longTasksSuggestion] else []) ++
  (if 0 < taskData.length ∧
      0 < (taskData.filter (fun t => decide (t.MaxConcurrent ≠ "") && parseIntGt t.MaxConcurrent 1)).length
   then [concurrentSuggestion] else [])

/-- Membership in a conditional singleton. -/
theorem mem_ite_singleton {α : Type} (a b : α) (c : Prop) [Decidable c] :
    (a ∈ (if c then [b] else [])) ↔ c ∧ a = b := by
  split <;> simp_all

/-- C7: for a non-empty client list, the priority-allocation suggestion is
included exactly when the fraction of clients whose `PriorityLevel`
parses to a number `>= 4` strictly exceeds `0.3`. -/
theorem claim_C7_priority_rule_threshold (clientData : List Client)
    (workerData : List Worker) (taskData : List TaskRec)
    (hne : clientData ≠ []) :
    prioritySuggestion ∈ suggestRules clientData workerData taskData ↔
      mkRat 3 10 <
        qDiv ((countHighPriorityClients clientData : ℚ)) ((clientData.length : ℚ)) := by
  have hlen : 0 < clientData.length := List.length_pos.mpr hne
  have h2 : prioritySuggestion ≠ slotsSuggestion := by decide
  have h3 : prioritySuggestion ≠ groupsSuggestion := by decide
  have h4 : prioritySuggestion ≠ longTasksSuggestion := by decide
  have h5 : prioritySuggestion ≠ concurrentSuggestion := by decide
  unfold suggestRules
  constructor
  · intro hmem
    rcases List.mem_append.mp hmem with hrest | hx
    · rcases List.mem_append.mp hrest with hrest | hx
      · rcases List.mem_append.mp hrest with hrest | hx
        · rcases List.mem_append.mp hrest with hx | hx
          · exact ((mem_ite_singleton _ _ _).mp hx).1.2
          · exact absurd ((mem_ite_singleton _ _ _).mp hx).2 h2
        · exact absurd ((mem_ite_singleton _ _ _).mp hx).2 h3
      · exact absurd ((mem_ite_singleton _ _ _).mp hx).2 h4
    · exact absurd ((mem_ite_singleton _ _ _).mp hx).2 h5
  · intro hq
    exact List.mem_append.mpr (Or.inl (List.mem_append.mpr (Or.inl (List.mem_append.mpr
      (Or.inl (List.mem_append.mpr (Or.inl ((mem_ite_singleton _ _ _).mpr
        ⟨⟨hlen, hq⟩, rfl⟩))))))))

/-- C7 witness: with 10 clients of which 4 have `PriorityLevel >= 4` the
suggestion is included (ratio `0.4 > 0.3`); with only 2 qualifying it is
not (ratio `0.2`). -/
theorem claim_C7_priority_rule_threshold_witness :
    prioritySuggestion ∈
      suggestRules
        [⟨"C1", "N", "5", "", "", ""⟩, ⟨"C2", "N", "4", "", "", ""⟩,
         ⟨"C3", "N", "9", "", "", ""⟩, ⟨"C4", "N", "4", "", "", ""⟩,
         ⟨"C5", "N", "1", "", "", ""⟩, ⟨"C6", "N", "2", "", "", ""⟩,
         ⟨"C7", "N", "3", "", "", ""⟩, ⟨"C8", "N", "1", "", "", ""⟩,
         ⟨"C9", "N", "2", "", "", ""⟩, ⟨"C10", "N", "3", "", "", ""⟩] [] [] ∧
    prioritySuggestion ∉
      suggestRules
        [⟨"C1", "N", "5", "", "", ""⟩, ⟨"C2", "N", "4", "", "", ""⟩,
         ⟨"C3", "N", "1", "", "", ""⟩, ⟨"C4", "N", "2", "", "", ""⟩,
         ⟨"C5", "N", "1", "", "", ""⟩, ⟨"C6", "N", "2", "", "", ""⟩,
         ⟨"C7", "N", "3", "", "", ""⟩, ⟨"C8", "N", "1", "", "", ""⟩,
         ⟨"C9", "N", "2", "", "", ""⟩, ⟨"C10", "N", "3", "", "", ""⟩] [] [] :=
  ⟨(claim_C7_priority_rule_threshold _ [] [] (by decide)).mpr (by decide),
   fun hmem =>
     absurd ((claim_C7_priority_rule_threshold _ [] [] (by decide)).mp hmem) (by decide)⟩

/-!  ## Reference check (C8) -/

/-- C8: the reference check is silent on absent values and on values from
the allowed set; a present value outside the set yields exactly one
error-severity issue whose suggestion lists the first 3 allowed values,
with the `"..."` indicator appended exactly when more than 3 exist. -/
theorem claim_C8_reference_check (v : String) (vs : List String) (f : String) (i : Nat) :
    (v = "" → validators.reference v vs f i = none) ∧
    (v ∈ vs → validators.reference v vs f i = none) ∧
    (v ≠ "" → v ∉ vs →
      validators.reference v vs f i =
        some { row := i, column := f
               error := f ++ " references invalid value: " ++ v
               severity := .error
               suggestion := "Use one of: " ++ joinSep ", " (vs.take 3) ++
                 (if 3 < vs.length then "..." else "") }) := by
  refine ⟨?_, ?_, ?_⟩
  · intro hv
    simp [validators.reference, hv]
  · intro hv
    simp [validators.reference, hv]
  · intro hv hnm
    simp [validators.reference, hv, hnm]

/-- C8 witness: a present value outside a 4-element allowed set yields the
error with the first three values listed and the ellipsis appended. -/
theorem claim_C8_reference_check_witness :
    validators.reference "X" ["a", "b", "c", "d"] "Skills" 2 =
      some { row := 2, column := "Skills"
             error := "Skills references invalid value: X"
             severity := .error
             suggestion := "Use one of: " ++ joinSep ", " (["a", "b", "c", "d"].take 3) ++
               (if 3 < (["a", "b", "c", "d"] : List String).length then "..." else "") } :=
  (claim_C8_reference_check "X" ["a", "b", "c", "d"] "Skills" 2).2.2 (by decide) (by decide)

/-!  ## Natural-language rule templates (C9) -/

structure RuleDraft where
  type : String
  condition : String
  action : String
  description : String
deriving DecidableEq

/-- The priority-first template (ai-helpers.ts lines 245–250). -/
def priorityRule : RuleDraft :=
  ⟨"priority", "Client.PriorityLevel >= 4", "allocate_first",
   "Allocate high priority clients first"⟩

/-- The load-balance template (lines 254–259). -/
def loadBalanceRule : RuleDraft :=
  ⟨"load_balance", "Worker.AvailableSlots > 0", "distribute_evenly",
   "Balance workload across available workers"⟩

/-- The skill-match template (lines 263–268). -/
def skillMatchRule : RuleDraft :=
  ⟨"skill_match", "Task.RequiredSkills IN Worker.Skills", "assign_qualified_worker",
   "Match tasks to workers with required skills"⟩

/-- The group-allocation template (lines 273–278). -/
def groupAllocationRule : RuleDraft :=
  ⟨"group_allocation", "Worker.WorkerGroup = \"SpecificGroup\"", "assign_within_group",
   "Allocate tasks within specific worker groups"⟩

/-- The manual-review default template (lines 281–286), echoing the
original description. -/
def manualReviewRule (description : String) : RuleDraft :=
  ⟨"custom", "true", "manual_review", description⟩

/-- `naturalLanguageToRule` (ai-helpers.ts lines 241–287). -/
def naturalLanguageToRule (description : String) : RuleDraft :=
  if containsSub (lowerJs description) "high priority" ∧
      containsSub (lowerJs description) "first" then priorityRule
  else if containsSub (lowerJs description) "balance" ∧
      containsSub (lowerJs description) "load" then loadBalanceRule
  else if containsSub (lowerJs description) "skill" ∧
      containsSub (lowerJs description) "match" then skillMatchRule
  else if containsSub (lowerJs description) "group" ∨
      containsSub (lowerJs description) "team" then groupAllocationRule
  else manualReviewRule description

/-- C9: the rule converter is a closed classifier — every description
maps to one of the four fixed templates or to the manual-review template
echoing the description, and when no keyword set matches it returns the
manual-review template. -/
theorem claim_C9_closed_rule_classifier (d : String) :
    (naturalLanguageToRule d = priorityRule ∨
     naturalLanguageToRule d = loadBalanceRule ∨
     naturalLanguageToRule d = skillMatchRule ∨
     naturalLanguageToRule d = groupAllocationRule ∨
     naturalLanguageToRule d = manualReviewRule d) ∧
    (¬ ((containsSub (lowerJs d) "high priority" ∧ containsSub (lowerJs d) "first") ∨
        (containsSub (lowerJs d) "balance" ∧ containsSub (lowerJs d) "load") ∨
        (containsSub (lowerJs d) "skill" ∧ containsSub (lowerJs d) "match") ∨
        (containsSub (lowerJs d) "group" ∨ containsSub (lowerJs d) "team")) →
      naturalLanguageToRule d = manualReviewRule d) := by
  constructor
  · unfold naturalLanguageToRule
    split
    · exact Or.inl rfl
    split
    · exact Or.inr (Or.inl rfl)
    split
    · exact Or.inr (Or.inr (Or.inl rfl))
    split
    · exact Or.inr (Or.inr (Or.inr (Or.inl rfl)))
    · exact Or.inr (Or.inr (Or.inr (Or.inr rfl)))
  · intro hno
    unfold naturalLanguageToRule
    rw [if_neg (fun h => hno (Or.inl h)), if_neg (fun h => hno (Or.inr (Or.inl h))),
      if_neg (fun h => hno (Or.inr (Or.inr (Or.inl h)))),
      if_neg (fun h => hno (Or.inr (Or.inr (Or.inr h))))]

/-- C9 witness: a description with none of the keywords yields the
manual-review template with the description echoed. -/
theorem claim_C9_closed_rule_classifier_witness :
    (naturalLanguageToRule "allocate everything somehow" = priorityRule ∨
     naturalLanguageToRule "allocate everything somehow" = loadBalanceRule ∨
     naturalLanguageToRule "allocate everything somehow" = skillMatchRule ∨
     naturalLanguageToRule "allocate everything somehow" = groupAllocationRule ∨
     naturalLanguageToRule "allocate everything somehow" =
       manualReviewRule "allocate everything somehow") ∧
    naturalLanguageToRule "allocate everything somehow" =
      manualReviewRule "allocate everything somehow" :=
  ⟨(claim_C9_closed_rule_classifier "allocate everything somehow").1,
   (claim_C9_closed_rule_classifier "allocate everything somehow").2 (by decide)⟩

/-!  ## Type check versus range check on `PriorityLevel` (C6) -/

/-- A required-field issue carries the checked field as its column. -/
theorem required_col (v f : String) (i : Nat) (e : ValidationError)
    (h : validators.required v f i = some e) : e.column = f := by
  unfold validators.required at h
  split at h
  · cases h
    rfl
  · cases h

/-- A required-field issue carries the checked row index. -/
theorem required_row (v f : String) (i : Nat) (e : ValidationError)
    (h : validators.required v f i = some e) : e.row = i := by
  unfold validators.required at h
  split at h
  · cases h
    rfl
  · cases h

/-- A data-type issue carries the checked row index. -/
theorem dataType_row (v t f : String) (i : Nat) (e : ValidationError)
    (h : validators.dataType v t f i = some e) : e.row = i := by
  unfold validators.dataType at h
  split at h
  · cases h
  split at h
  · split at h
    · cases h
      rfl
    · cases h
  split at h
  · split at h
    · cases h
      rfl
    · cases h
  · cases h

/-- A range issue carries the checked row index. -/
theorem range_row (v : String) (mn mx : ℚ) (f : String) (i : Nat) (e : ValidationError)
    (h : validators.range v mn mx f i = some e) : e.row = i := by
  unfold validators.range at h
  split at h
  · cases h
  split at h
  · cases h
    rfl
  · cases h

/-- Every issue produced for one client row is stamped with that row
index. -/
theorem clientRowIssues_row (r : Client) (j : Nat) :
    ∀ e ∈ clientRowIssues r j, e.row = j := by
  intro e he
  unfold clientRowIssues at he
  rcases List.mem_append.mp he with he | he
  · rcases List.mem_append.mp he with he | he
    · rcases List.mem_append.mp he with he | he
      · rcases List.mem_append.mp he with he | he
        · exact required_row _ _ _ _ (Option.mem_def.mp (Option.mem_toList.mp he))
        · exact required_row _ _ _ _ (Option.mem_def.mp (Option.mem_toList.mp he))
      · exact required_row _ _ _ _ (Option.mem_def.mp (Option.mem_toList.mp he))
    · exact dataType_row _ _ _ _ _ (Option.mem_def.mp (Option.mem_toList.mp he))
  · exact range_row _ _ _ _ _ _ (Option.mem_def.mp (Option.mem_toList.mp he))

/-- Every duplicate-check issue carries the checked field as its column. -/
theorem duplicates_col (vs : List String) (f : String) :
    ∀ e ∈ validators.duplicates vs f, e.column = f := by
  intro e he
  rw [validators.duplicates, dupGo_eq] at he
  obtain ⟨p, -, rfl⟩ := List.mem_map.mp he
  rfl

/-- A NaN `Number` result implies the value was not blank. -/
theorem jsNumber_nan_trim {v : String} (h : jsNumber v = .nan) : trimJs v ≠ "" := by
  intro he
  have : jsNumber v = .val 0 := by
    unfold jsNumber
    rw [he]
    rfl
  rw [this] at h
  cases h

theorem trim_ne_imp_ne {v : String} (h : trimJs v ≠ "") : v ≠ "" := by
  intro he
  exact h (by rw [he]; rfl)

/-- Number of issues at one row and column with one severity. -/
def countAt (l : List ValidationError) (col : String) (i : Nat) (sev : Severity) : Nat :=
  (l.filter (fun e => (e.column == col && e.row == i) && e.severity == sev)).length

theorem countAt_append (l1 l2 : List ValidationError) (col : String) (i : Nat)
    (sev : Severity) :
    countAt (l1 ++ l2) col i sev = countAt l1 col i sev + countAt l2 col i sev := by
  simp [countAt, List.filter_append]

/-- A filtered length is zero when the predicate holds nowhere. -/
theorem filter_length_zero {α : Type} (l : List α) (p : α → Bool)
    (h : ∀ a ∈ l, p a = false) : (l.filter p).length = 0 := by
  rw [List.length_eq_zero, List.filter_eq_nil_iff]
  intro a ha
  simp [h a ha]

/-- The per-row, per-column issue counts of a validation report are the
corresponding `countAt` of the collected issue list. -/
theorem buildResult_countAt (n : Nat) (issues : List ValidationError) (col : String)
    (i : Nat) :
    (((buildResult n issues).errors.filter
        (fun e => e.column == col && e.row == i)).length = countAt issues col i .error) ∧
    (((buildResult n issues).warnings.filter
        (fun e => e.column == col && e.row == i)).length = countAt issues col i .warning) := by
  constructor <;>
  · show ((List.filter _ issues).filter _).length = _
    rw [List.filter_filter]
    rfl

/-- One optional issue with a different column contributes nothing. -/
theorem countAt_opt_col (o : Option ValidationError) (col : String) (i : Nat)
    (sev : Severity) (h : ∀ e, o = some e → e.column ≠ col) :
    countAt o.toList col i sev = 0 := by
  cases o with
  | none => rfl
  | some e =>
    have hc : e.column ≠ col := h e rfl
    simp [countAt, hc]

/-- A row's issues contribute nothing at a different row index. -/
theorem countAt_rowIssues_ne (r : Client) (j i : Nat) (hne : j ≠ i) (col : String)
    (sev : Severity) : countAt (clientRowIssues r j) col i sev = 0 := by
  apply filter_length_zero
  intro e he
  have hr : e.row = j := clientRowIssues_row r j e he
  have : (e.row == i) = false := by
    rw [hr]
    exact beq_eq_false_iff_ne.mpr hne
  simp [this]

/-- Rows at other indices contribute nothing. -/
theorem countAt_flatten_zero (L : List (Nat × Client)) (i : Nat)
    (hL : ∀ p ∈ L, p.1 ≠ i) (col : String) (sev : Severity) :
    countAt ((L.map (fun p => clientRowIssues p.2 p.1)).flatten) col i sev = 0 := by
  induction L with
  | nil => rfl
  | cons p L ih =>
    rw [List.map_cons, List.flatten_cons, countAt_append,
      countAt_rowIssues_ne p.2 p.1 i (hL p (List.mem_cons_self p L)) col sev,
      ih (fun q hq => hL q (List.mem_cons_of_mem p hq))]

/-- The `PriorityLevel` issues of a client-validation run at row `i` are
exactly the `PriorityLevel` issues computed for that row. -/
theorem validateClientData_countAt (data : List Client) (i : Nat) (row : Client)
    (hrow : data[i]? = some row) (sev : Severity) :
    countAt ((data.enum.map (fun p => clientRowIssues p.2 p.1)).flatten ++
        validators.duplicates (data.map (fun r => r.ClientID)) "ClientID")
      "PriorityLevel" i sev =
    countAt (clientRowIssues row i) "PriorityLevel" i sev := by
  obtain ⟨hi, hget⟩ := List.getElem?_eq_some.mp hrow
  have hdupz : countAt (validators.duplicates (data.map (fun r => r.ClientID)) "ClientID")
      "PriorityLevel" i sev = 0 := by
    apply filter_length_zero
    intro e he
    have hc : e.column = "ClientID" := duplicates_col _ _ e he
    have : (e.column == "PriorityLevel") = false := by
      rw [hc]
      decide
    simp [this]
  rw [countAt_append, hdupz, Nat.add_zero]
  have hsplit : data = data.take i ++ row :: data.drop (i + 1) := by
    conv_lhs => rw [← List.take_append_drop i data]
    rw [List.drop_eq_getElem_cons hi, hget]
  have hlen : (data.take i).length = i := by
    rw [List.length_take]
    omega
  conv_lhs => rw [hsplit]
  have henum : (data.take i ++ row :: data.drop (i + 1)).enum =
      (data.take i).enum ++ List.enumFrom i (row :: data.drop (i + 1)) := by
    show List.enumFrom 0 _ = _
    rw [List.enumFrom_append, Nat.zero_add, hlen]
    rfl
  rw [henum, List.enumFrom_cons, List.map_append, List.map_cons, List.flatten_append,
    List.flatten_cons, countAt_append, countAt_append]
  have h1 : countAt (((data.take i).enum.map (fun p => clientRowIssues p.2 p.1)).flatten)
      "PriorityLevel" i sev = 0 := by
    apply countAt_flatten_zero
    intro p hp
    have := List.fst_lt_add_of_mem_enumFrom hp
    omega
  have h3 : countAt (((List.enumFrom (i + 1) (data.drop (i + 1))).map
      (fun p => clientRowIssues p.2 p.1)).flatten) "PriorityLevel" i sev = 0 := by
    apply countAt_flatten_zero
    intro p hp
    have := List.le_fst_of_mem_enumFrom hp
    omega
  rw [h1, h3]
  simp

theorem countAt_nil (col : String) (i : Nat) (sev : Severity) :
    countAt [] col i sev = 0 := rfl

/-- A singleton issue matching column, row and severity counts once. -/
theorem countAt_single_hit (e : ValidationError) (col : String) (i : Nat) (sev : Severity)
    (h1 : e.column = col) (h2 : e.row = i) (h3 : e.severity = sev) :
    countAt [e] col i sev = 1 := by
  simp [countAt, h1, h2, h3]

/-- A singleton issue of another severity does not count. -/
theorem countAt_single_sev_miss (e : ValidationError) (col : String) (i : Nat)
    (sev : Severity) (h : e.severity ≠ sev) : countAt [e] col i sev = 0 := by
  simp [countAt, beq_eq_false_iff_ne.mpr h]

/-- C6: in client validation, for any record list and any row, a
`PriorityLevel` that does not parse as a number yields exactly one
error-severity (type) issue and no warning for that field on that row; a
present `PriorityLevel` that parses to a finite number outside `[1, 10]`
yields exactly one warning-severity (range) issue and no error for that
field on that row. -/
theorem claim_C6_priority_type_vs_range (data : List Client) (i : Nat) (row : Client)
    (hrow : data[i]? = some row) :
    (jsNumber row.PriorityLevel = .nan →
      ((validateClientData data).errors.filter
          (fun e => e.column == "PriorityLevel" && e.row == i)).length = 1 ∧
      ((validateClientData data).warnings.filter
          (fun e => e.column == "PriorityLevel" && e.row == i)).length = 0) ∧
    (∀ q : ℚ, jsNumber row.PriorityLevel = .val q → trimJs row.PriorityLevel ≠ "" →
      (q < 1 ∨ 10 < q) →
      ((validateClientData data).warnings.filter
          (fun e => e.column == "PriorityLevel" && e.row == i)).length = 1 ∧
      ((validateClientData data).errors.filter
          (fun e => e.column == "PriorityLevel" && e.row == i)).length = 0) := by
  have hv : validateClientData data = buildResult data.length
      ((data.enum.map (fun p => clientRowIssues p.2 p.1)).flatten ++
        validators.duplicates (data.map (fun r => r.ClientID)) "ClientID") := rfl
  have hA : ∀ sev, countAt (validators.required row.ClientID "ClientID" i).toList
      "PriorityLevel" i sev = 0 := by
    intro sev
    refine countAt_opt_col _ _ _ _ ?_
    intro e he
    rw [required_col _ _ _ _ he]
    decide
  have hB : ∀ sev, countAt (validators.required row.ClientName "ClientName" i).toList
      "PriorityLevel" i sev = 0 := by
    intro sev
    refine countAt_opt_col _ _ _ _ ?_
    intro e he
    rw [required_col _ _ _ _ he]
    decide
  constructor
  · intro hnan
    have htrim : trimJs row.PriorityLevel ≠ "" := jsNumber_nan_trim hnan
    have hne : row.PriorityLevel ≠ "" := trim_ne_imp_ne htrim
    have hreq : validators.required row.PriorityLevel "PriorityLevel" i = none := by
      unfold validators.required
      rw [if_neg]
      rintro (h | h)
      · exact hne h
      · exact htrim h
    have htype : validators.dataType row.PriorityLevel "number" "PriorityLevel" i =
        some { row := i, column := "PriorityLevel"
               error := "PriorityLevel must be a number", severity := .error
               suggestion := "Enter a valid number for PriorityLevel" } := by
      unfold validators.dataType
      rw [if_neg hne, if_pos rfl]
      rw [show (jsNumber row.PriorityLevel).isNaN = true by rw [hnan]; rfl, if_pos rfl]
      rfl
    have hrange : validators.range row.PriorityLevel 1 10 "PriorityLevel" i = none := by
      unfold validators.range
      rw [show (jsNumber row.PriorityLevel).isNaN = true by rw [hnan]; rfl, if_pos rfl]
    constructor
    · rw [hv, (buildResult_countAt _ _ _ _).1, validateClientData_countAt data i row hrow]
      unfold clientRowIssues
      rw [hreq, htype, hrange]
      simp only [countAt_append, hA, hB]
      simp only [Option.toList]
      rw [countAt_single_hit _ _ _ _ rfl rfl rfl]
      simp [countAt_nil]
    · rw [hv, (buildResult_countAt _ _ _ _).2, validateClientData_countAt data i row hrow]
      unfold clientRowIssues
      rw [hreq, htype, hrange]
      simp only [countAt_append, hA, hB]
      simp only [Option.toList]
      rw [countAt_single_sev_miss _ _ _ _ (by exact fun h => Severity.noConfusion h)]
      simp [countAt_nil]
  · intro q hq htrim hout
    have hne : row.PriorityLevel ≠ "" := trim_ne_imp_ne htrim
    have hreq : validators.required row.PriorityLevel "PriorityLevel" i = none := by
      unfold validators.required
      rw [if_neg]
      rintro (h | h)
      · exact hne h
      · exact htrim h
    have hnn : (jsNumber row.PriorityLevel).isNaN = false := by rw [hq]; rfl
    have htype : validators.dataType row.PriorityLevel "number" "PriorityLevel" i = none := by
      unfold validators.dataType
      rw [if_neg hne, if_pos rfl, hnn]
      rfl
    have hcomp : ((jsNumber row.PriorityLevel).ltQ 1 ||
        (jsNumber row.PriorityLevel).gtQ 10) = true := by
      rw [hq]
      rcases hout with h | h
      · show (decide (q < 1) || decide (10 < q)) = true
        simp [h]
      · show (decide (q < 1) || decide (10 < q)) = true
        simp [h]
    have hrange : validators.range row.PriorityLevel 1 10 "PriorityLevel" i =
        some { row := i, column := "PriorityLevel"
               error := "PriorityLevel must be between " ++ qToString 1 ++ " and " ++ qToString 10
               severity := .warning
               suggestion := "Adjust PriorityLevel to be within range " ++
                 qToString 1 ++ "-" ++ qToString 10 } := by
      unfold validators.range
      rw [hnn, if_neg (by simp), if_pos hcomp]
      rfl
    constructor
    · rw [hv, (buildResult_countAt _ _ _ _).2, validateClientData_countAt data i row hrow]
      unfold clientRowIssues
      rw [hreq, htype, hrange]
      simp only [countAt_append, hA, hB]
      simp only [Option.toList]
      rw [countAt_single_hit _ _ _ _ rfl rfl rfl]
      simp [countAt_nil]
    · rw [hv, (buildResult_countAt _ _ _ _).1, validateClientData_countAt data i row hrow]
      unfold clientRowIssues
      rw [hreq, htype, hrange]
      simp only [countAt_append, hA, hB]
      simp only [Option.toList]
      rw [countAt_single_sev_miss _ _ _ _ (by exact fun h => Severity.noConfusion h)]
      simp [countAt_nil]

/-- C6 witness: in a two-row run, `PriorityLevel = "abc"` at row 1 gives
one type error and no range warning there; in another, `PriorityLevel =
"12"` at row 0 gives one range warning and no error. -/
theorem claim_C6_priority_type_vs_range_witness :
    (((validateClientData [⟨"C0", "M", "5", "", "", ""⟩, ⟨"C1", "Name", "abc", "", "", ""⟩]).errors.filter
        (fun e => e.column == "PriorityLevel" && e.row == 1)).length = 1 ∧
     ((validateClientData [⟨"C0", "M", "5", "", "", ""⟩, ⟨"C1", "Name", "abc", "", "", ""⟩]).warnings.filter
        (fun e => e.column == "PriorityLevel" && e.row == 1)).length = 0) ∧
    (((validateClientData [⟨"C1", "Name", "12", "", "", ""⟩]).warnings.filter
        (fun e => e.column == "PriorityLevel" && e.row == 0)).length = 1 ∧
     ((validateClientData [⟨"C1", "Name", "12", "", "", ""⟩]).errors.filter
        (fun e => e.column == "PriorityLevel" && e.row == 0)).length = 0) :=
  ⟨(claim_C6_priority_type_vs_range
      [⟨"C0", "M", "5", "", "", ""⟩, ⟨"C1", "Name", "abc", "", "", ""⟩] 1
      ⟨"C1", "Name", "abc", "", "", ""⟩ (by decide)).1 (by decide),
   (claim_C6_priority_type_vs_range [⟨"C1", "Name", "12", "", "", ""⟩] 0
      ⟨"C1", "Name", "12", "", "", ""⟩ (by decide)).2 12
     (by decide) (by decide) (Or.inr (by decide))⟩

/-!  ## Query interpreter (`processNaturalLanguageQuery`, ai-helpers.ts lines 101–198)

The entity-specific patterns are JavaScript regexes over the lowercased
query.  Each regex below is hand-compiled into a total matcher with the
regex's leftmost-match, greedy-with-backtracking semantics; each matcher's
doc comment quotes the original regex.  All the character classes
involved contain at most the literal space among whitespace characters,
which is what the `\s*`-backtracking helpers below rely on. -/

/-- Leftmost match: try the position matcher at every start position,
left to right. -/
def firstMatch {α : Type} (f : List Char → Option α) : List Char → Option α
  | [] => f []
  | c :: t =>
    match f (c :: t) with
    | some r => some r
    | none => firstMatch f t

/-- Strip a literal from the front, returning the rest. -/
def stripLit : List Char → List Char → Option (List Char)
  | l, [] => some l
  | [], _ :: _ => none
  | a :: l, b :: p => if a = b then stripLit l p else none

def dropSpaces (l : List Char) : List Char := l.dropWhile isJsSpace

/-- Greedy `\s*` followed by a one-or-more capture from class `C`: the
capture starts after the whitespace run when possible; otherwise, when
`C` admits the space character, the engine backtracks `\s*` far enough to
hand the capture a single space (the characters between that space and
the failed capture start are outside `C`). -/
def captureAfterSpaces (C : Char → Bool) (l : List Char) : Option String :=
  let ws := l.takeWhile isJsSpace
  let rest := l.dropWhile isJsSpace
  match rest with
  | c :: _ =>
    if C c then some (String.mk (rest.takeWhile C))
    else if C ' ' && ws.contains ' ' then some " " else none
  | [] => if C ' ' && ws.contains ' ' then some " " else none

/-- Greedy `\s*[:\-]?\s*` followed by a one-or-more capture from class
`C`, with the same space-backtracking as `captureAfterSpaces` (no class
used here contains `:` or `-`). -/
def sepCapture (C : Char → Bool) (l : List Char) : Option String :=
  let ws1 := l.takeWhile isJsSpace
  let r1 := l.dropWhile isJsSpace
  let r2 : List Char :=
    match r1 with
    | c :: t => if c = ':' || c = '-' then t else r1
    | [] => []
  let ws2 := r2.takeWhile isJsSpace
  let r3 := r2.dropWhile isJsSpace
  match r3 with
  | c :: _ =>
    if C c then some (String.mk (r3.takeWhile C))
    else if C ' ' && (ws2.contains ' ' || ws1.contains ' ') then some " " else none
  | [] => if C ' ' && (ws2.contains ' ' || ws1.contains ' ') then some " " else none

def isLowerAZ (c : Char) : Bool := 'a' ≤ c && c ≤ 'z'

/-- The class `[a-z0-9, ]`. -/
def classAlnumCommaSpace (c : Char) : Bool :=
  isLowerAZ c || isDigitCh c || c = ',' || c = ' '

/-- The class `[a-z, ]`. -/
def classAlphaCommaSpace (c : Char) : Bool :=
  isLowerAZ c || c = ',' || c = ' '

/-- The class `[a-z0-9]`. -/
def classAlnum (c : Char) : Bool := isLowerAZ c || isDigitCh c

/-- The quote class `['"]` (39 is the ASCII apostrophe). -/
def isQuote (c : Char) : Bool := c = Char.ofNat 39 || c = '"'

/-- Position matcher for `/priority\s*(?:level)?\s*(\d+)/`. -/
def pPriorityAt (l : List Char) : Option String :=
  match stripLit l "priority".toList with
  | none => none
  | some r1 =>
    let r2 := dropSpaces r1
    match stripLit r2 "level".toList with
    | some r3 => captureAfterSpaces isDigitCh r3 <|> captureAfterSpaces isDigitCh r2
    | none => captureAfterSpaces isDigitCh r2

/-- `lowercaseQuery.match(/priority\s*(?:level)?\s*(\d+)/)`, group 1. -/
def matchPriorityNum (q : String) : Option String := firstMatch pPriorityAt q.toList

/-- Position matcher for `/name\s*['"]?([^'"]+)['"]?/`.  When everything
after the whitespace run is a quote or the end, the engine backtracks
`\s*` by one character and captures it (any whitespace character is in
`[^'"]`). -/
def pNameAt (l : List Char) : Option String :=
  match stripLit l "name".toList with
  | none => none
  | some r1 =>
    let ws := r1.takeWhile isJsSpace
    let r2 := r1.dropWhile isJsSpace
    let r3 : List Char :=
      match r2 with
      | c :: t => if isQuote c then t else r2
      | [] => []
    let cap := r3.takeWhile (fun c => !isQuote c)
    if cap ≠ [] then some (String.mk cap)
    else
      match ws.getLast? with
      | some c => some (String.mk [c])
      | none => none

/-- `lowercaseQuery.match(/name\s*['"]?([^'"]+)['"]?/)`, group 1. -/
def matchNameSub (q : String) : Option String := firstMatch pNameAt q.toList

/-- Position matcher for `/(?:requested\s*)?tasks\s*([a-z0-9, ]+)/`. -/
def pTasksAt (l : List Char) : Option String :=
  let tasksFrom : List Char → Option String := fun start =>
    match stripLit start "tasks".toList with
    | some r => captureAfterSpaces classAlnumCommaSpace r
    | none => none
  match stripLit l "requested".toList with
  | some r => tasksFrom (dropSpaces r) <|> tasksFrom l
  | none => tasksFrom l

/-- `lowercaseQuery.match(/(?:requested\s*)?tasks\s*([a-z0-9, ]+)/)`, group 1. -/
def matchTasksList (q : String) : Option String := firstMatch pTasksAt q.toList

/-- Position matcher for `/group\s*([a-z0-9]+)/`. -/
def pGroupAt (l : List Char) : Option String :=
  match stripLit l "group".toList with
  | some r => captureAfterSpaces classAlnum r
  | none => none

/-- `lowercaseQuery.match(/group\s*([a-z0-9]+)/)`, group 1. -/
def matchGroupTag (q : String) : Option String := firstMatch pGroupAt q.toList

/-- Position matcher for `/skill[s]?\s*[:\-]?\s*([a-z, ]+)/` (the
optional `s` backtracks: if the rest fails after consuming `s`, the `s`
itself can open the capture). -/
def pSkillAt (l : List Char) : Option String :=
  match stripLit l "skill".toList with
  | none => none
  | some r1 =>
    match r1 with
    | 's' :: t => sepCapture classAlphaCommaSpace t <|> sepCapture classAlphaCommaSpace r1
    | _ => sepCapture classAlphaCommaSpace r1

/-- `lowercaseQuery.match(/skill[s]?\s*[:\-]?\s*([a-z, ]+)/)`, group 1. -/
def matchSkillList (q : String) : Option String := firstMatch pSkillAt q.toList

/-- Position matcher for `/phase\s*(\d+)/`. -/
def pPhaseNumAt (l : List Char) : Option String :=
  match stripLit l "phase".toList with
  | some r => captureAfterSpaces isDigitCh r
  | none => none

/-- `lowercaseQuery.match(/phase\s*(\d+)/)`, group 1. -/
def matchPhaseNum (q : String) : Option String := firstMatch pPhaseNumAt q.toList

/-- `\s*(?:of)?\s*(\d+)` after an alternation, with the optional `of`
backtracking. -/
def ofThenDigits (r1 : List Char) : Option String :=
  let r2 := dropSpaces r1
  match stripLit r2 "of".toList with
  | some r3 => captureAfterSpaces isDigitCh r3 <|> captureAfterSpaces isDigitCh r2
  | none => captureAfterSpaces isDigitCh r2

/-- Position matcher for `/(?:max load|load limit)\s*(?:of)?\s*(\d+)/`. -/
def pLoadAt (l : List Char) : Option String :=
  (match stripLit l "max load".toList with
   | some r => ofThenDigits r
   | none => none) <|>
  (match stripLit l "load limit".toList with
   | some r => ofThenDigits r
   | none => none)

/-- `lowercaseQuery.match(/(?:max load|load limit)\s*(?:of)?\s*(\d+)/)`, group 1. -/
def matchLoadLimit (q : String) : Option String := firstMatch pLoadAt q.toList

/-- Position matcher for `/worker group\s*([a-z0-9]+)/`. -/
def pWorkerGroupAt (l : List Char) : Option String :=
  match stripLit l "worker group".toList with
  | some r => captureAfterSpaces classAlnum r
  | none => none

/-- `lowercaseQuery.match(/worker group\s*([a-z0-9]+)/)`, group 1. -/
def matchWorkerGroup (q : String) : Option String := firstMatch pWorkerGroupAt q.toList

/-- Position matcher for `/duration\s*(?:more than|>)\s*(\d+)/`. -/
def pDurationAt (l : List Char) : Option String :=
  match stripLit l "duration".toList with
  | none => none
  | some r1 =>
    let r2 := dropSpaces r1
    let gtBranch : Option String :=
      match stripLit r2 ">".toList with
      | some r3 => captureAfterSpaces isDigitCh r3
      | none => none
    match stripLit r2 "more than".toList with
    | some r3 => captureAfterSpaces isDigitCh r3 <|> gtBranch
    | none => gtBranch

/-- `lowercaseQuery.match(/duration\s*(?:more than|>)\s*(\d+)/)`, group 1. -/
def matchDurationGt (q : String) : Option String := firstMatch pDurationAt q.toList

/-- The structured capture `\d+(?:-\d+)?(?:,\s*\d+(?:-\d+)?)*`, built
verbatim from the matched text; the fuel argument (seeded with the list
length) only bounds the comma-iteration, which consumes at least one
character per round. -/
def capPhaseItems : Nat → List Char → List Char → List Char × List Char
  | 0, acc, r => (acc, r)
  | n + 1, acc, r =>
    let ds := r.takeWhile isDigitCh
    let r1 := r.dropWhile isDigitCh
    let (acc2, r2) : List Char × List Char :=
      match r1 with
      | '-' :: t =>
        let ds2 := t.takeWhile isDigitCh
        if ds2 ≠ [] then (acc ++ ds ++ '-' :: ds2, t.dropWhile isDigitCh)
        else (acc ++ ds, r1)
      | _ => (acc ++ ds, r1)
    match r2 with
    | ',' :: t =>
      let sp := t.takeWhile isJsSpace
      let t2 := t.dropWhile isJsSpace
      if (t2.takeWhile isDigitCh) ≠ [] then
        capPhaseItems n (acc2 ++ ',' :: sp) t2
      else (acc2, r2)
    | _ => (acc2, r2)

/-- Position matcher for
`/phase[s]?\s*(\d+(?:-\d+)?(?:,\s*\d+(?:-\d+)?)*)/`. -/
def pPhaseListAt (l : List Char) : Option String :=
  match stripLit l "phase".toList with
  | none => none
  | some r1 =>
    let fromRest : List Char → Option String := fun r =>
      let r2 := dropSpaces r
      if (r2.takeWhile isDigitCh) ≠ [] then
        some (String.mk (capPhaseItems r2.length [] r2).1)
      else none
    match r1 with
    | 's' :: t => fromRest t <|> fromRest r1
    | _ => fromRest r1

/-- `lowercaseQuery.match(/phase[s]?\s*(\d+(?:-\d+)?(?:,\s*\d+(?:-\d+)?)*)/)`, group 1. -/
def matchPhaseList (q : String) : Option String := firstMatch pPhaseListAt q.toList

/-- Position matcher for
`/(?:required skill[s]?|skills needed)\s*[:\-]?\s*([a-z, ]+)/`. -/
def pReqSkillAt (l : List Char) : Option String :=
  (match stripLit l "required skill".toList with
   | some r1 =>
     (match r1 with
      | 's' :: t => sepCapture classAlphaCommaSpace t <|> sepCapture classAlphaCommaSpace r1
      | _ => sepCapture classAlphaCommaSpace r1)
   | none => none) <|>
  (match stripLit l "skills needed".toList with
   | some r1 => sepCapture classAlphaCommaSpace r1
   | none => none)

/-- Group 1 of `/(?:required skill[s]?|skills needed)\s*[:\-]?\s*([a-z, ]+)/`. -/
def matchReqSkillList (q : String) : Option String := firstMatch pReqSkillAt q.toList

/-- Position matcher for `/(?:max concurrent|parallel)\s*(?:of)?\s*(\d+)/`. -/
def pConcurrentAt (l : List Char) : Option String :=
  (match stripLit l "max concurrent".toList with
   | some r => ofThenDigits r
   | none => none) <|>
  (match stripLit l "parallel".toList with
   | some r => ofThenDigits r
   | none => none)

/-- Group 1 of `/(?:max concurrent|parallel)\s*(?:of)?\s*(\d+)/`. -/
def matchConcurrent (q : String) : Option String := firstMatch pConcurrentAt q.toList

/-- `a <= b` on two `parseInt` results; false when either is NaN, as the
JavaScript comparison is. -/
def parseIntsLe (a b : Option Int) : Bool :=
  match a, b with
  | some x, some y => x ≤ y
  | _, _ => false

/-- `a > b` on two `parseInt` results; false when either is NaN. -/
def parseIntsGt (a b : Option Int) : Bool :=
  match a, b with
  | some x, some y => y < x
  | _, _ => false

/-- A record of the union type `Client | Worker | Task` that
`processNaturalLanguageQuery` filters. -/
inductive EntityRec : Type
  | client : Client → EntityRec
  | worker : Worker → EntityRec
  | task : TaskRec → EntityRec
deriving DecidableEq

/-- The `dataType` parameter: `'clients' | 'workers' | 'tasks'`. -/
inductive EntityKind : Type
  | clients : EntityKind
  | workers : EntityKind
  | tasks : EntityKind
deriving DecidableEq

/-- Field access through the unchecked `as` casts of the source: reading
a field of the wrong variant yields JavaScript `undefined`, modelled as
the falsy empty string. -/
def EntityRec.fPriorityLevel : EntityRec → String
  | .client c => c.PriorityLevel
  | _ => ""

def EntityRec.fClientName : EntityRec → String
  | .client c => c.ClientName
  | _ => ""

def EntityRec.fRequestedTaskIDs : EntityRec → String
  | .client c => c.RequestedTaskIDs
  | _ => ""

def EntityRec.fGroupTag : EntityRec → String
  | .client c => c.GroupTag
  | _ => ""

def EntityRec.fSkills : EntityRec → String
  | .worker w => w.Skills
  | _ => ""

def EntityRec.fAvailableSlots : EntityRec → String
  | .worker w => w.AvailableSlots
  | _ => ""

def EntityRec.fMaxLoadPerPhase : EntityRec → String
  | .worker w => w.MaxLoadPerPhase
  | _ => ""

def EntityRec.fWorkerGroup : EntityRec → String
  | .worker w => w.WorkerGroup
  | _ => ""

def EntityRec.fDuration : EntityRec → String
  | .task t => t.Duration
  | _ => ""

def EntityRec.fPreferredPhases : EntityRec → String
  | .task t => t.PreferredPhases
  | _ => ""

def EntityRec.fRequiredSkills : EntityRec → String
  | .task t => t.RequiredSkills
  | _ => ""

def EntityRec.fMaxConcurrent : EntityRec → String
  | .task t => t.MaxConcurrent
  | _ => ""

/-- The client filter body (lines 106–129): each `if (...) return true`
block in source order; `return false` when no rule fired. -/
def clientQueryPred (lq : String) (item : EntityRec) : Bool :=
  ((containsSub lq "high priority" || containsSub lq "priority") &&
    (let minPriority : Int :=
      match matchPriorityNum lq with
      | some d => (jsParseInt d).getD 0  -- the capture is a nonempty digit run, so parseInt is a number here
      | none => 4
     decide (item.fPriorityLevel ≠ "") && parseIntGe item.fPriorityLevel minPriority)) ||
  ((containsSub lq "client name" || containsSub lq "name") &&
    (match matchNameSub lq with
     | some cap =>
       decide (item.fClientName ≠ "") && containsSub (lowerJs item.fClientName) (lowerJs cap)
     | none => false)) ||
  ((containsSub lq "requested tasks" || containsSub lq "tasks") &&
    (match matchTasksList lq with
     | some cap =>
       decide (item.fRequestedTaskIDs ≠ "") &&
         (splitComma cap).any
           (fun t => containsSub (lowerJs item.fRequestedTaskIDs) (lowerJs (trimJs t)))
     | none => false)) ||
  (containsSub lq "group" &&
    (match matchGroupTag lq with
     | some cap =>
       decide (item.fGroupTag ≠ "") && containsSub (lowerJs item.fGroupTag) (lowerJs cap)
     | none => false))

/-- The worker filter body (lines 134–157). -/
def workerQueryPred (lq : String) (item : EntityRec) : Bool :=
  ((containsSub lq "skill" || containsSub lq "skills") &&
    (match matchSkillList lq with
     | some cap =>
       decide (item.fSkills ≠ "") &&
         (splitComma cap).any
           (fun s => containsSub (lowerJs item.fSkills) (lowerJs (trimJs s)))
     | none => false)) ||
  ((containsSub lq "available" || containsSub lq "slots") &&
    ((match matchPhaseNum lq with
      | some cap =>
        decide (item.fAvailableSlots ≠ "") && containsSub item.fAvailableSlots cap
      | none => false) ||
     decide (item.fAvailableSlots ≠ ""))) ||
  ((containsSub lq "max load" || containsSub lq "load limit") &&
    (match matchLoadLimit lq with
     | some cap =>
       decide (item.fMaxLoadPerPhase ≠ "") &&
         parseIntsLe (jsParseInt item.fMaxLoadPerPhase) (jsParseInt cap)
     | none => false)) ||
  (containsSub lq "worker group" &&
    (match matchWorkerGroup lq with
     | some cap =>
       decide (item.fWorkerGroup ≠ "") && containsSub (lowerJs item.fWorkerGroup) (lowerJs cap)
     | none => false))

/-- The task filter body (lines 162–189).  The phase block is special: on
a keyword hit with a regex match and a truthy `PreferredPhases` it
*returns* the membership test's value, short-circuiting the remaining
blocks. -/
def taskQueryPred (lq : String) (item : EntityRec) : Bool :=
  if (containsSub lq "duration more than" || containsSub lq "duration >") &&
      (match matchDurationGt lq with
       | some cap =>
         decide (item.fDuration ≠ "") && parseIntsGt (jsParseInt item.fDuration) (jsParseInt cap)
       | none => false) then true
  else if (containsSub lq "phase" || containsSub lq "preferred phases") &&
      (match matchPhaseList lq with
       | some _ => decide (item.fPreferredPhases ≠ "")
       | none => false) then
    match matchPhaseList lq with
    | some cap =>
      ((splitComma cap).map (fun p => trimJs p)).any
        (fun p => containsSub item.fPreferredPhases p)
    | none => false
  else if (containsSub lq "required skill" || containsSub lq "skills needed") &&
      (match matchReqSkillList lq with
       | some cap =>
         decide (item.fRequiredSkills ≠ "") &&
           (splitComma cap).any
             (fun s => containsSub (lowerJs item.fRequiredSkills) (lowerJs (trimJs s)))
       | none => false) then true
  else if (containsSub lq "max concurrent" || containsSub lq "parallel") &&
      (match matchConcurrent lq with
       | some cap =>
         decide (item.fMaxConcurrent ≠ "") &&
           parseIntsLe (jsParseInt item.fMaxConcurrent) (jsParseInt cap)
       | none => false) then true
  else false

/-- `processNaturalLanguageQuery` (ai-helpers.ts lines 101–198).  Each of
the three `dataType` values returns its entity filter directly; the
generic substring scan of lines 193–197 sits after these returns and is
therefore unreachable for every value of the declared `dataType` union —
it is modelled separately as `fallbackSearch`. -/
def processNaturalLanguageQuery (query : String) (data : List EntityRec)
    (dataType : EntityKind) : List EntityRec :=
  match dataType with
  | .clients => data.filter (clientQueryPred (lowerJs query))
  | .workers => data.filter (workerQueryPred (lowerJs query))
  | .tasks => data.filter (taskQueryPred (lowerJs query))

/-- `Object.values(item)` in the declared field order of `types.ts`. -/
def EntityRec.values : EntityRec → List String
  | .client c => [c.ClientID, c.ClientName, c.PriorityLevel, c.RequestedTaskIDs,
      c.GroupTag, c.AttributesJSON]
  | .worker w => [w.WorkerID, w.WorkerName, w.Skills, w.AvailableSlots,
      w.MaxLoadPerPhase, w.WorkerGroup, w.QualificationLevel]
  | .task t => [t.TaskID, t.TaskName, t.Category, t.Duration, t.RequiredSkills,
      t.PreferredPhases, t.MaxConcurrent]

/-- The generic substring scan of lines 193–197: keep a record when some
truthy field value, stringified and lowercased, contains the lowercased
query. -/
def fallbackSearch (query : String) (data : List EntityRec) : List EntityRec :=
  data.filter
    (fun item =>
      item.values.any
        (fun v => decide (v ≠ "") && containsSub (lowerJs v) (lowerJs query)))

/-- C1: at the concrete failing input — entity kind `clients`, query
`"xyz123"` (which contains none of the client keywords `"priority"`,
`"name"`, `"tasks"`, `"group"`, so no entity-specific pattern applies),
and one client whose name contains `"xyz123"` — the code returns the
empty list, while the generic substring scan the claim promises would
return the client.  The scan (lines 193–197) sits after the three
entity-kind returns and is unreachable for every declared `dataType`. -/
theorem claim_C1_fallback_unreachable :
    processNaturalLanguageQuery "xyz123"
        [EntityRec.client ⟨"C1", "xyz123 corp", "2", "", "", ""⟩] .clients = [] ∧
    fallbackSearch "xyz123" [EntityRec.client ⟨"C1", "xyz123 corp", "2", "", "", ""⟩] =
      [EntityRec.client ⟨"C1", "xyz123 corp", "2", "", "", ""⟩] ∧
    containsSub "xyz123" "priority" = false ∧
    containsSub "xyz123" "high priority" = false ∧
    containsSub "xyz123" "name" = false ∧
    containsSub "xyz123" "client name" = false ∧
    containsSub "xyz123" "tasks" = false ∧
    containsSub "xyz123" "requested tasks" = false ∧
    containsSub "xyz123" "group" = false := by
  refine ⟨?_, ?_, ?_, ?_, ?_, ?_, ?_, ?_, ?_⟩ <;> decide
